import Mathlib

/-!
# Solar ephemeris of the sunlight visualisation platform

A shallow embedding of `src/utils/sunCalculations.js` (class `SunCalculations`).

Conventions of the embedding.

* JavaScript numbers are read as exact numbers: integers where the source only
  ever holds integers (calendar fields, Julian Day Number, epoch milliseconds),
  real numbers elsewhere.  `Math.sin`, `Math.cos`, `Math.tan`, `Math.asin`,
  `Math.acos`, `Math.atan2` are the real functions; rounding of doubles is not
  modelled, except where a definition says so: `roundDouble` is the rounding
  of one addition, subtraction or multiplication of doubles to the nearest
  double, and `calculateShadowDirection`, `fmtMinutesDouble`,
  `formatTimeDouble`, `sunriseDouble` and `sunsetDouble` apply it where the
  source adds, subtracts or multiplies.
* A `Date` is modelled by the values its local-time getters return, together
  with the epoch milliseconds of the local midnight of its calendar day.
* Local constants of the source (`L`, `g`, `lambda`, `delta`, `cosH`,
  `hourAngle`, `sunrise`, `sunset`) are top-level functions of the same name
  (prefixed where the name would clash), so that statements can refer to them.
-/

namespace SunViz

/-! ## Dates -/

/-- A valid JavaScript `Date`, by the values of its local-time getters
(`getFullYear`, `getMonth` (0-based), `getDate`, `getHours`, `getMinutes`,
`getSeconds`, `getMilliseconds`) and the epoch milliseconds of the local
midnight that starts its calendar day. -/
structure JsDate where
  fullYear : Int
  month : Int
  date : Int
  hours : Int
  minutes : Int
  seconds : Int
  milliseconds : Int
  midnight : Int
deriving DecidableEq

/-- The ranges of the getters of a valid `Date`. -/
def JsDate.Valid (d : JsDate) : Prop :=
  0 ≤ d.month ∧ d.month ≤ 11 ∧ 1 ≤ d.date ∧ d.date ≤ 31 ∧
  0 ≤ d.hours ∧ d.hours ≤ 23 ∧ 0 ≤ d.minutes ∧ d.minutes ≤ 59 ∧
  0 ≤ d.seconds ∧ d.seconds ≤ 59 ∧ 0 ≤ d.milliseconds ∧ d.milliseconds ≤ 999

instance (d : JsDate) : Decidable d.Valid := by
  unfold JsDate.Valid; infer_instance

/-- `date.getTime()`: epoch milliseconds. -/
def JsDate.getTime (d : JsDate) : Int :=
  d.midnight + ((d.hours * 60 + d.minutes) * 60 + d.seconds) * 1000 + d.milliseconds

/-- `d.setHours(0, 0, 0, 0)`: local midnight of the same calendar day. -/
def JsDate.setHoursZero (d : JsDate) : JsDate :=
  { d with hours := 0, minutes := 0, seconds := 0, milliseconds := 0 }

/-- `new Date(base.getTime() + ms)` for a `base` at local midnight and
`0 ≤ ms < 86400000`, in a zone whose UTC offset does not change during that
day: the same calendar day, with the time of day read off `ms`. -/
def JsDate.plusMs (base : JsDate) (ms : Int) : JsDate :=
  { base with
    hours := ms / 3600000
    minutes := ms % 3600000 / 60000
    seconds := ms % 60000 / 1000
    milliseconds := ms % 1000 }

/-- Two dates on the same local calendar day. -/
def JsDate.SameDay (d e : JsDate) : Prop :=
  d.fullYear = e.fullYear ∧ d.month = e.month ∧ d.date = e.date

/-! ## Number helpers -/

section Generic

variable {α : Type*} [LinearOrderedField α] [FloorRing α]

/-- Rounding towards zero, as an integer. -/
def trunc (x : α) : Int := if 0 ≤ x then ⌊x⌋ else ⌈x⌉

/-- The JavaScript remainder `a % b`: `a - b * trunc (a / b)`; it has the sign
of the dividend. -/
def jsMod (a b : α) : α := a - b * (trunc (a / b) : α)

/-- `s.padStart(targetLength, c)` for a one-character pad string. -/
def padStart (s : String) (targetLength : Nat) (c : Char) : String :=
  String.mk (List.replicate (targetLength - s.length) c) ++ s

/-- The local constant `hours` of `formatTime`: `Math.floor(decimalHours)`. -/
def fmtHours (decimalHours : α) : Int := ⌊decimalHours⌋

/-- The local constant `minutes` of `formatTime`:
`Math.floor((decimalHours - hours) * 60)`. -/
def fmtMinutes (decimalHours : α) : Int :=
  ⌊(decimalHours - (fmtHours decimalHours : α)) * 60⌋

/-- `formatTime(decimalHours)`: `null` for `null`, else `HH:MM`. -/
def formatTime (decimalHours : Option α) : Option String :=
  match decimalHours with
  | none => none
  | some h =>
    some (padStart (toString (fmtHours h)) 2 '0' ++ ":" ++
          padStart (toString (fmtMinutes h)) 2 '0')

end Generic

/-! ## Rounding -/

section Rounding

variable {α : Type*} [LinearOrderedField α] [FloorRing α]

/-- The nearest integer, a tie going to the even one. -/
def roundHalfEven (y : α) : Int :=
  if Int.fract y < 1 / 2 then ⌊y⌋
  else if 1 / 2 < Int.fract y then ⌊y⌋ + 1
  else if ⌊y⌋ % 2 = 0 then ⌊y⌋
  else ⌊y⌋ + 1

/-- The rounding of the result of an arithmetic operation to a double: the
nearest number with a 53-bit significand, a tie going to the even significand
(IEEE 754 binary64, round to nearest, in the range of the normal numbers). -/
def roundDouble (x : α) : α :=
  if x = 0 then 0
  else (roundHalfEven (x / (2 : α) ^ (Int.log 2 |x| - 52)) : α) * (2 : α) ^ (Int.log 2 |x| - 52)

/-- The local constant `minutes` of `formatTime` with the two roundings of its
arithmetic, `(decimalHours - hours) * 60`, written out. -/
def fmtMinutesDouble (decimalHours : α) : Int :=
  ⌊roundDouble (roundDouble (decimalHours - (fmtHours decimalHours : α)) * 60)⌋

/-- `formatTime(decimalHours)` with the roundings of its arithmetic written
out. -/
def formatTimeDouble (decimalHours : Option α) : Option String :=
  match decimalHours with
  | none => none
  | some h =>
    some (padStart (toString (fmtHours h)) 2 '0' ++ ":" ++
          padStart (toString (fmtMinutesDouble h)) 2 '0')

/-- The local constant `sunrise = 12 - hourAngle` of `getSunTimes` with the
rounding of the difference written out. -/
def sunriseDouble (hourAngle : α) : α := roundDouble (12 - hourAngle)

/-- The local constant `sunset = 12 + hourAngle` of `getSunTimes` with the
rounding of the sum written out. -/
def sunsetDouble (hourAngle : α) : α := roundDouble (12 + hourAngle)

end Rounding

/-- `getJulianDay(date)`.  The operands are integers and the divisors
positive, so `Math.floor(x / k)` is the integer floor division. -/
def getJulianDay (date : JsDate) : Int :=
  let a := (14 - (date.month + 1)) / 12
  let y := date.fullYear + 4800 - a
  let m := (date.month + 1) + 12 * a - 3
  date.date + (153 * m + 2) / 5 + 365 * y + y / 4 - y / 100 + y / 400 - 32045

/-! ## The position model -/

noncomputable section

open Real

/-- `toRadians(degrees)`. -/
def toRadians (degrees : ℝ) : ℝ := degrees * (π / 180)

/-- `toDegrees(radians)`. -/
def toDegrees (radians : ℝ) : ℝ := radians * (180 / π)

/-- `Math.atan2(y, x)`: the angle of the point `(x, y)`, in `(-π, π]`, and `0`
at the origin. -/
def atan2 (y x : ℝ) : ℝ := Complex.arg ⟨x, y⟩

/-- The local constant `n = jd - 2451545.0`. -/
def solarN (jd : Int) : ℝ := (jd : ℝ) - 2451545.0

/-- The local constant `L = (280.460 + 0.9856474 * n) % 360`. -/
def solarL (jd : Int) : ℝ := jsMod (280.460 + 0.9856474 * solarN jd) 360

/-- The local constant `g = toRadians((357.528 + 0.9856003 * n) % 360)`. -/
def solarG (jd : Int) : ℝ := toRadians (jsMod (357.528 + 0.9856003 * solarN jd) 360)

/-- The local constant
`lambda = toRadians(L + 1.915 * sin(g) + 0.020 * sin(2 * g))`. -/
def solarLambda (jd : Int) : ℝ :=
  toRadians (solarL jd + 1.915 * sin (solarG jd) + 0.020 * sin (2 * solarG jd))

/-- The local constant
`delta = asin(sin(toRadians(23.439)) * sin(lambda))`, in radians. -/
def solarDelta (jd : Int) : ℝ :=
  arcsin (sin (toRadians 23.439) * sin (solarLambda jd))

/-- The object `getSolarPosition` returns. -/
structure SolarPosition where
  elevation : ℝ
  azimuth : ℝ
  declination : ℝ

/-- The local constant `hour` of `getSolarPosition`:
`getHours() + getMinutes() / 60 + getSeconds() / 3600`. -/
def decimalHour (date : JsDate) : ℝ :=
  (date.hours : ℝ) + (date.minutes : ℝ) / 60 + (date.seconds : ℝ) / 3600

/-- The local constant `H = toRadians(15 * (hour - 12))`. -/
def hourAngleRad (hour : ℝ) : ℝ := toRadians (15 * (hour - 12))

/-- The argument of `Math.asin` in the local constant `elevation`:
`sin(delta) * sin(latRad) + cos(delta) * cos(latRad) * cos(H)`. -/
def altitudeSine (lat : ℝ) (jd : Int) (hour : ℝ) : ℝ :=
  sin (solarDelta jd) * sin (toRadians lat) +
    cos (solarDelta jd) * cos (toRadians lat) * cos (hourAngleRad hour)

/-- The local constant `elevation` of `getSolarPosition` (radians, before the
clamp at the `return`). -/
def altitudeRad (lat : ℝ) (jd : Int) (hour : ℝ) : ℝ :=
  arcsin (altitudeSine lat jd hour)

/-- The local constant `azimuth` of `getSolarPosition` (radians). -/
def azimuthRad (lat : ℝ) (jd : Int) (hour : ℝ) : ℝ :=
  atan2 (sin (hourAngleRad hour))
    (cos (hourAngleRad hour) * sin (toRadians lat) -
      tan (solarDelta jd) * cos (toRadians lat))

/-- The body of `getSolarPosition` after its first two lines, as a function of
the Julian Day Number `jd` and the decimal hour `hour`. -/
def solarPositionAt (lat : ℝ) (jd : Int) (hour : ℝ) : SolarPosition :=
  { elevation := max 0 (toDegrees (altitudeRad lat jd hour))
    azimuth := jsMod (toDegrees (azimuthRad lat jd hour) + 180) 360
    declination := toDegrees (solarDelta jd) }

/-- `getSolarPosition(lat, lng, date)`.  The parameter `lng` is not used by
the source. -/
def getSolarPosition (lat _lng : ℝ) (date : JsDate) : SolarPosition :=
  solarPositionAt lat (getJulianDay date) (decimalHour date)

/-! ## Sunrise and sunset -/

/-- The local constant `cosH = -tan(latRad) * tan(delta)` of `getSunTimes`. -/
def cosH (lat : ℝ) (jd : Int) : ℝ :=
  -tan (toRadians lat) * tan (solarDelta jd)

/-- The local constant `hourAngle = toDegrees(acos(cosH)) / 15`, in hours. -/
def hourAngle (lat : ℝ) (jd : Int) : ℝ :=
  toDegrees (arccos (cosH lat jd)) / 15

/-- The local constant `sunrise = 12 - hourAngle`, in decimal hours. -/
def sunriseHours (lat : ℝ) (jd : Int) : ℝ := 12 - hourAngle lat jd

/-- The local constant `sunset = 12 + hourAngle`, in decimal hours. -/
def sunsetHours (lat : ℝ) (jd : Int) : ℝ := 12 + hourAngle lat jd

/-- The value of `solarNoon`: the number `12` at the polar `return`, the
result of `formatTime(12)` at the other. -/
inductive NoonValue where
  | number (x : ℝ)
  | formatted (s : Option String)

/-- The object `getSunTimes` returns.  `none` is `null` for `sunrise` and
`sunset`, and a property that is not set for the golden and blue hours. -/
structure SunTimes where
  sunrise : Option String
  sunset : Option String
  solarNoon : NoonValue
  dayLength : ℝ
  goldenHourMorning : Option String
  goldenHourEvening : Option String
  blueHourMorning : Option String
  blueHourEvening : Option String

/-- `getSunTimes(lat, lng, date)`.  The parameter `lng` is not used by the
source. -/
def getSunTimes (lat _lng : ℝ) (date : JsDate) : SunTimes :=
  let jd := getJulianDay date
  if |cosH lat jd| > 1 then
    { sunrise := none
      sunset := none
      solarNoon := NoonValue.number 12
      dayLength := if |cosH lat jd| > 1 then (if cosH lat jd > 1 then 0 else 24) else 0
      goldenHourMorning := none
      goldenHourEvening := none
      blueHourMorning := none
      blueHourEvening := none }
  else
    { sunrise := formatTime (some (sunriseHours lat jd))
      sunset := formatTime (some (sunsetHours lat jd))
      solarNoon := NoonValue.formatted (formatTime (some (12 : ℝ)))
      dayLength := hourAngle lat jd * 2
      goldenHourMorning := formatTime (some (sunriseHours lat jd + 0.5))
      goldenHourEvening := formatTime (some (sunsetHours lat jd - 0.5))
      blueHourMorning := formatTime (some (sunriseHours lat jd - 0.5))
      blueHourEvening := formatTime (some (sunsetHours lat jd + 0.5)) }

/-- The minutes of the day a `HH:MM` value of `formatTime` denotes:
`60 * hours + minutes` of the two numbers it prints. -/
def minutesOfDay (decimalHours : ℝ) : Int :=
  60 * fmtHours decimalHours + fmtMinutes decimalHours

/-! ## How a call ends -/

/-- The argument a validation error of the specification identifies. -/
inductive InvalidInput where
  | latitude
  | longitude
  | time
deriving DecidableEq

/-- The end of a call of `getSolarPosition`: the source has no `throw` and no
range check, every call reaches the `return`. -/
def getSolarPositionCall (lat lng : ℝ) (date : JsDate) :
    Except InvalidInput SolarPosition :=
  Except.ok (getSolarPosition lat lng date)

/-- The end of a call of `getSunTimes`: the source has no `throw` and no
range check, every call reaches one of the two `return`s. -/
def getSunTimesCall (lat lng : ℝ) (date : JsDate) :
    Except InvalidInput SunTimes :=
  Except.ok (getSunTimes lat lng date)

/-! ## The sun path -/

/-- An entry of the array `getSunPath` returns: `time`, the spread
`...position`, and `timestamp`. -/
structure SunPathSample where
  time : Option String
  position : SolarPosition
  timestamp : Int

/-- The `for` loop of `getSunPath`, from its `k`-th iteration on.  The loop
variable is `hour = k * 0.25` (the step `0.25` is exact in binary floating
point), and `hour * 3600000 = k * 900000` milliseconds. -/
def getSunPathLoop (lat lng : ℝ) (baseDate : JsDate) (k : Nat) : List SunPathSample :=
  if _h : (k : ℚ) * 0.25 < 24 then
    let hour : ℝ := (k : ℝ) * 0.25
    let currentTime := baseDate.plusMs ((k : Int) * 900000)
    let position := getSolarPosition lat lng currentTime
    if position.elevation > 0 then
      { time := formatTime (some hour)
        position := position
        timestamp := currentTime.getTime } :: getSunPathLoop lat lng baseDate (k + 1)
    else
      getSunPathLoop lat lng baseDate (k + 1)
  else
    []
termination_by 96 - k
decreasing_by
  all_goals
    have hk : (k : ℚ) < 96 := by linarith
    have hk' : k < 96 := by exact_mod_cast hk
    omega

/-- `getSunPath(lat, lng, date)`. -/
def getSunPath (lat lng : ℝ) (date : JsDate) : List SunPathSample :=
  getSunPathLoop lat lng date.setHoursZero 0

/-! ## Reading a formatted time back -/

/-- The value of a decimal digit character. -/
def digitValue (c : Char) : Option Int :=
  if c.isDigit then some ((c.toNat : Int) - 48) else none

/-- The minutes of the day a five-character `HH:MM` string denotes; `none` for
any other string. -/
def readHHMM (s : String) : Option Int :=
  match s.data with
  | [a, b, ':', c, d] =>
    match digitValue a, digitValue b, digitValue c, digitValue d with
    | some a, some b, some c, some d => some (60 * (10 * a + b) + (10 * c + d))
    | _, _, _, _ => none
  | _ => none

/-- Noon of 2024-06-21 (month index 5), local midnight at the epoch
milliseconds of 2024-06-21T00:00Z. -/
def solsticeNoon : JsDate :=
  { fullYear := 2024, month := 5, date := 21, hours := 12, minutes := 0, seconds := 0,
    milliseconds := 0, midnight := 1718928000000 }

/-- Noon of 2024-03-20 (month index 2), local midnight at the epoch
milliseconds of 2024-03-20T00:00Z. -/
def equinoxNoon : JsDate :=
  { fullYear := 2024, month := 2, date := 20, hours := 12, minutes := 0, seconds := 0,
    milliseconds := 0, midnight := 1710892800000 }

/-- The array entry the body of the loop of `getSunPath` pushes in iteration
`k`, if it pushes one. -/
def sunPathSampleAt (lat lng : ℝ) (baseDate : JsDate) (k : Nat) : Option SunPathSample :=
  if (getSolarPosition lat lng (baseDate.plusMs ((k : Int) * 900000))).elevation > 0 then
    some
      { time := formatTime (some ((k : ℝ) * 0.25))
        position := getSolarPosition lat lng (baseDate.plusMs ((k : Int) * 900000))
        timestamp := (baseDate.plusMs ((k : Int) * 900000)).getTime }
  else
    none

/-! ## The Gregorian calendar -/

/-- The Gregorian leap-year rule: divisible by 4, except the centuries not
divisible by 400. -/
def isLeapYear (year : Int) : Prop :=
  year % 4 = 0 ∧ (year % 100 ≠ 0 ∨ year % 400 = 0)

instance (year : Int) : Decidable (isLeapYear year) := by
  unfold isLeapYear; infer_instance

/-- The number of days of a month (`0` is January) of a Gregorian year. -/
def daysInMonth (year month : Int) : Int :=
  if month = 1 then (if isLeapYear year then 29 else 28)
  else if month = 3 ∨ month = 5 ∨ month = 8 ∨ month = 10 then 30
  else 31

/-- The calendar fields of the date name a day of the Gregorian calendar. -/
def JsDate.OnCalendar (d : JsDate) : Prop :=
  0 ≤ d.month ∧ d.month ≤ 11 ∧ 1 ≤ d.date ∧ d.date ≤ daysInMonth d.fullYear d.month

instance (d : JsDate) : Decidable d.OnCalendar := by
  unfold JsDate.OnCalendar; infer_instance

/-- The same time of day on the next day of the Gregorian calendar (a day of
24 hours). -/
def JsDate.nextDay (d : JsDate) : JsDate :=
  if d.date < daysInMonth d.fullYear d.month then
    { d with date := d.date + 1, midnight := d.midnight + 86400000 }
  else if d.month < 11 then
    { d with month := d.month + 1, date := 1, midnight := d.midnight + 86400000 }
  else
    { d with fullYear := d.fullYear + 1, month := 0, date := 1,
             midnight := d.midnight + 86400000 }

/-- Noon of 2000-01-01 (month index 0), local midnight at the epoch
milliseconds of 2000-01-01T00:00Z. -/
def j2000Noon : JsDate :=
  { fullYear := 2000, month := 0, date := 1, hours := 12, minutes := 0, seconds := 0,
    milliseconds := 0, midnight := 946684800000 }

/-! ## `sunCalculator.js` (class `SunCalculator`) -/

namespace SunCalculator

/-- The fields of the object `SunCalc.getPosition` returns that the class
reads, both in radians. -/
structure LibPosition where
  azimuth : ℝ
  altitude : ℝ

/-- What the class uses from outside the repository: the `suncalc` package and
the JavaScript runtime.  `numberToString` is the conversion of a number in a
template string, `newYearsEve year` is `new Date(year, 0, 0).getTime()`. -/
structure Host where
  getPosition : JsDate → ℝ → ℝ → LibPosition
  numberToString : ℝ → String
  newYearsEve : Int → Int
  toLocaleTimeString : JsDate → String

/-- The object `getSunPosition` returns. -/
structure SunPosition where
  azimuth : ℝ
  elevation : ℝ
  altitude : ℝ
  declination : ℝ

/-- `radiansToDegrees(radians)`. -/
def radiansToDegrees (radians : ℝ) : ℝ := radians * (180 / π)

/-- `degreesToRadians(degrees)`. -/
def degreesToRadians (degrees : ℝ) : ℝ := degrees * (π / 180)

/-- `getDayOfYear(date)`: the whole days from `new Date(year, 0, 0)` to the
date. -/
def getDayOfYear (host : Host) (date : JsDate) : Int :=
  (date.getTime - host.newYearsEve date.fullYear) / (1000 * 60 * 60 * 24)

/-- `calculateDeclination(date)`. -/
def calculateDeclination (host : Host) (date : JsDate) : ℝ :=
  23.45 * sin (degreesToRadians (360 * (284 + (getDayOfYear host date : ℝ)) / 365))

/-- The field `this.cache`, a `Map` from key strings to results, by its
lookup. -/
abbrev Cache := String → Option SunPosition

/-- `new Map()`. -/
def emptyCache : Cache := fun _ => none

/-- The local constant `cacheKey`, the template string
`lat_lng_time` of the three numbers. -/
def cacheKey (host : Host) (lat lng : ℝ) (date : JsDate) : String :=
  host.numberToString lat ++ "_" ++ host.numberToString lng ++ "_" ++
    host.numberToString (date.getTime : ℝ)

/-- The local constant `result` of `getSunPosition`, built from the position
of the library. -/
def computeResult (host : Host) (lat lng : ℝ) (date : JsDate) : SunPosition :=
  let position := host.getPosition date lat lng
  { azimuth := radiansToDegrees (position.azimuth + π)
    elevation := radiansToDegrees position.altitude
    altitude := radiansToDegrees position.altitude
    declination := calculateDeclination host date }

/-- `getSunPosition(lat, lng, date)` on the cache `cache`: the value returned
and the cache after the call. -/
def getSunPosition (host : Host) (cache : Cache) (lat lng : ℝ) (date : JsDate) :
    SunPosition × Cache :=
  match cache (cacheKey host lat lng date) with
  | some cached => (cached, cache)
  | none =>
    (computeResult host lat lng date,
      Function.update cache (cacheKey host lat lng date)
        (some (computeResult host lat lng date)))

/-- An entry of the array `getSunPath` returns: `time`, `timeString` and the
spread `...position`. -/
structure PathEntry where
  time : JsDate
  timeString : String
  position : SunPosition

/-- The `for` loop of `getSunPath` from the value `minutes` of its variable
on: the entries pushed and the cache at the end. -/
def getSunPathLoop (host : Host) (lat lng : ℝ) (baseDate : JsDate) (minutes : Nat)
    (cache : Cache) : List PathEntry × Cache :=
  if minutes < 24 * 60 then
    let currentTime := baseDate.plusMs ((minutes : Int) * 60000)
    let step := getSunPosition host cache lat lng currentTime
    let rest := getSunPathLoop host lat lng baseDate (minutes + 10) step.2
    if step.1.elevation > -18 then
      ({ time := currentTime
         timeString := host.toLocaleTimeString currentTime
         position := step.1 } :: rest.1, rest.2)
    else
      rest
  else
    ([], cache)
termination_by 24 * 60 - minutes

/-- `getSunPath(lat, lng, date)` on the cache `cache`: the array returned and
the cache after the call. -/
def getSunPath (host : Host) (cache : Cache) (lat lng : ℝ) (date : JsDate) :
    List PathEntry × Cache :=
  getSunPathLoop host lat lng date.setHoursZero 0 cache

/-- The arguments of one call of `getSunPosition`. -/
structure Call where
  lat : ℝ
  lng : ℝ
  date : JsDate

/-- A sequence of calls of `getSunPosition` on one `SunCalculator`: the values
returned, in order, and the cache at the end. -/
def runCalls (host : Host) : Cache → List Call → List SunPosition × Cache
  | cache, [] => ([], cache)
  | cache, c :: cs =>
    let step := getSunPosition host cache c.lat c.lng c.date
    let rest := runCalls host step.2 cs
    (step.1 :: rest.1, rest.2)

/-- A host for the examples: the library reports the sun due north (azimuth
`π` from south) on the horizon, and a number is printed as `0` or `1`. -/
def northHost : Host :=
  { getPosition := fun _ _ _ => { azimuth := π, altitude := 0 }
    numberToString := fun x => if x = 0 then "0" else "1"
    newYearsEve := fun _ => 0
    toLocaleTimeString := fun _ => "" }

/-- The instant of epoch time `0`. -/
def epochDate : JsDate :=
  { fullYear := 1970, month := 0, date := 1, hours := 0, minutes := 0, seconds := 0,
    milliseconds := 0, midnight := 0 }

end SunCalculator

namespace SunCalculator

/-- `calculateShadowDirection(sunAzimuth)`: the double sum `sunAzimuth + 180`
reduced by `% 360`, which is exact. -/
def calculateShadowDirection (sunAzimuth : ℝ) : ℝ :=
  jsMod (roundDouble (sunAzimuth + 180)) 360

end SunCalculator

/-! ## `weatherService.js` (class `WeatherService`) -/

namespace WeatherService

/-- `Math.round(x)`: the nearest integer, halves towards positive infinity. -/
def mathRound (x : ℝ) : Int := ⌊x + 1 / 2⌋

/-- `calculateUVIndex(lat, date, cloudCover)`. -/
def calculateUVIndex (lat : ℝ) (date : JsDate) (cloudCover : ℝ) : Int :=
  let hour := date.hours
  if hour < 6 ∨ hour > 18 then 0
  else
    let solarElevation := sin (((hour : ℝ) - 12) * π / 6)
    let baseUV := max 0 (solarElevation * 10)
    let latFactor := 1 - |lat| / 90
    let baseUVLat := baseUV * latFactor
    let cloudReduction := cloudCover / 100 * 0.6
    let baseUVCloud := baseUVLat * (1 - cloudReduction)
    mathRound (max 0 baseUVCloud)

end WeatherService

/-! ## `UserPreferencesContext.jsx` -/

namespace UserPreferences

/-- A plan object: its `id` (`none` when the property is absent), the two
time stamps `addRecentPlan` writes, and its other properties. -/
structure Plan (α : Type) where
  id : Option String
  createdAt : Option String
  lastModified : Option String
  other : α

/-- The preferences state: the `recentPlans` array and its other
properties. -/
structure Preferences (α β : Type) where
  recentPlans : List (Plan α)
  other : β

/-- The three readings of the clock in `addRecentPlan`: `Date.now()` and the
two `new Date().toISOString()`. -/
structure Clock where
  now : Int
  createdAt : String
  lastModified : String

/-- The value of `plan.id || plan_NOW`: the id of the plan unless it is
absent or the empty string. -/
def idOrGenerated {α : Type} (plan : Plan α) (clock : Clock) : String :=
  match plan.id with
  | some s => if s = "" then "plan_" ++ toString clock.now else s
  | none => "plan_" ++ toString clock.now

/-- The local constant `planWithId` of `addRecentPlan`. -/
def planWithId {α : Type} (plan : Plan α) (clock : Clock) : Plan α :=
  { plan with
    id := some (idOrGenerated plan clock)
    createdAt := some clock.createdAt
    lastModified := some clock.lastModified }

/-- The state update of `addRecentPlan(plan)`, applied to the previous
state `prev`. -/
def addRecentPlan {α β : Type} (clock : Clock) (plan : Plan α) (prev : Preferences α β) :
    Preferences α β :=
  { prev with
    recentPlans :=
      planWithId plan clock ::
        ((prev.recentPlans.filter fun p => decide (p.id ≠ (planWithId plan clock).id)).take 9) }

end UserPreferences

/-! ## Properties -/

/-! ### Rounding to a double -/

theorem roundHalfEven_error (y : ℝ) : |(roundHalfEven y : ℝ) - y| ≤ 1 / 2 := by
  have h1 := Int.fract_nonneg y
  have h2 := Int.fract_lt_one y
  have hf : (⌊y⌋ : ℝ) = y - Int.fract y := by
    have := Int.floor_add_fract y
    linarith
  unfold roundHalfEven
  split_ifs with a b c
  · rw [hf, abs_le]; constructor <;> linarith
  · push_cast; rw [hf, abs_le]; constructor <;> linarith
  · rw [hf, abs_le]; constructor <;> linarith
  · push_cast; rw [hf, abs_le]; constructor <;> linarith

theorem roundHalfEven_of_lt {y : ℝ} {n : Int} (h1 : (n : ℝ) - 1 / 2 < y)
    (h2 : y < (n : ℝ) + 1 / 2) : roundHalfEven y = n := by
  have e := abs_le.1 (roundHalfEven_error y)
  have a1 : ((roundHalfEven y : Int) : ℝ) < (n : ℝ) + 1 := by linarith [e.2]
  have a2 : (n : ℝ) - 1 < ((roundHalfEven y : Int) : ℝ) := by linarith [e.1]
  have b1 : roundHalfEven y < n + 1 := by exact_mod_cast a1
  have b2 : n - 1 < roundHalfEven y := by exact_mod_cast a2
  omega

theorem roundHalfEven_tie_odd {y : ℝ} {n : Int} (h : y = (n : ℝ) + 1 / 2) (hn : n % 2 = 1) :
    roundHalfEven y = n + 1 := by
  have hfl : ⌊y⌋ = n := by
    rw [Int.floor_eq_iff]; constructor <;> rw [h] <;> linarith
  have hfr : Int.fract y = 1 / 2 := by
    unfold Int.fract; rw [hfl, h]; ring
  unfold roundHalfEven
  rw [hfr, hfl]
  simp [hn]

theorem roundHalfEven_tie_even {y : ℝ} {n : Int} (h : y = (n : ℝ) + 1 / 2) (hn : n % 2 = 0) :
    roundHalfEven y = n := by
  have hfl : ⌊y⌋ = n := by
    rw [Int.floor_eq_iff]; constructor <;> rw [h] <;> linarith
  have hfr : Int.fract y = 1 / 2 := by
    unfold Int.fract; rw [hfl, h]; ring
  unfold roundHalfEven
  rw [hfr, hfl]
  simp [hn]

theorem roundHalfEven_nonneg {y : ℝ} (h : 0 ≤ y) : 0 ≤ roundHalfEven y := by
  have hfl : 0 ≤ ⌊y⌋ := Int.floor_nonneg.2 h
  unfold roundHalfEven
  split_ifs <;> omega

theorem two_zpow_pos (k : Int) : (0 : ℝ) < (2 : ℝ) ^ k := zpow_pos (by norm_num) k

theorem roundDouble_zero : roundDouble (0 : ℝ) = 0 := by
  unfold roundDouble; simp

theorem log_two_eq {x : ℝ} {e : Int} (h1 : (2 : ℝ) ^ e ≤ |x|) (h2 : |x| < (2 : ℝ) ^ (e + 1)) :
    Int.log 2 |x| = e := by
  have hpos : 0 < |x| := lt_of_lt_of_le (two_zpow_pos e) h1
  have a : e ≤ Int.log 2 |x| :=
    (Int.zpow_le_iff_le_log (b := 2) (by norm_num) hpos).1 (by simpa using h1)
  have b : Int.log 2 |x| < e + 1 :=
    (Int.lt_zpow_iff_log_lt (b := 2) (by norm_num) hpos).1 (by simpa using h2)
  omega

theorem roundDouble_eq {x : ℝ} {e : Int} (h1 : (2 : ℝ) ^ e ≤ |x|)
    (h2 : |x| < (2 : ℝ) ^ (e + 1)) :
    roundDouble x = (roundHalfEven (x / (2 : ℝ) ^ (e - 52)) : ℝ) * (2 : ℝ) ^ (e - 52) := by
  have hpos : 0 < |x| := lt_of_lt_of_le (two_zpow_pos e) h1
  have hx : x ≠ 0 := abs_pos.1 hpos
  unfold roundDouble
  rw [if_neg hx, log_two_eq h1 h2]

theorem roundDouble_error_log {x : ℝ} (hx : x ≠ 0) :
    |roundDouble x - x| ≤ (2 : ℝ) ^ (Int.log 2 |x| - 53) := by
  have hs := two_zpow_pos (Int.log 2 |x| - 52)
  have he := roundHalfEven_error (x / (2 : ℝ) ^ (Int.log 2 |x| - 52))
  have hsplit : (2 : ℝ) ^ (Int.log 2 |x| - 53) = (2 : ℝ) ^ (Int.log 2 |x| - 52) * (1 / 2) := by
    rw [show Int.log 2 |x| - 53 = (Int.log 2 |x| - 52) + (-1) by ring,
      zpow_add₀ (by norm_num : (2 : ℝ) ≠ 0)]
    norm_num
  unfold roundDouble
  rw [if_neg hx, hsplit]
  have hfac : (roundHalfEven (x / (2 : ℝ) ^ (Int.log 2 |x| - 52)) : ℝ) *
      (2 : ℝ) ^ (Int.log 2 |x| - 52) - x =
      ((roundHalfEven (x / (2 : ℝ) ^ (Int.log 2 |x| - 52)) : ℝ) -
        x / (2 : ℝ) ^ (Int.log 2 |x| - 52)) * (2 : ℝ) ^ (Int.log 2 |x| - 52) := by
    field_simp
  rw [hfac, abs_mul, abs_of_pos hs, mul_comm]
  exact mul_le_mul_of_nonneg_left he hs.le

theorem roundDouble_error {x : ℝ} {k : Int} (h : |x| < (2 : ℝ) ^ (k + 1)) :
    |roundDouble x - x| ≤ (2 : ℝ) ^ (k - 53) := by
  by_cases hx : x = 0
  · rw [hx, roundDouble_zero, sub_zero, abs_zero]
    exact (two_zpow_pos _).le
  · have hpos : 0 < |x| := abs_pos.2 hx
    have hlog : Int.log 2 |x| < k + 1 :=
      (Int.lt_zpow_iff_log_lt (b := 2) (by norm_num) hpos).1 (by simpa using h)
    refine le_trans (roundDouble_error_log hx) ?_
    exact zpow_le_zpow_right₀ (by norm_num) (by omega)

theorem roundDouble_nonneg {x : ℝ} (h : 0 ≤ x) : 0 ≤ roundDouble x := by
  unfold roundDouble
  split_ifs with h0
  · exact le_refl _
  · have hs := two_zpow_pos (Int.log 2 |x| - 52)
    have : 0 ≤ roundHalfEven (x / (2 : ℝ) ^ (Int.log 2 |x| - 52)) :=
      roundHalfEven_nonneg (div_nonneg h hs.le)
    have hc : (0 : ℝ) ≤ (roundHalfEven (x / (2 : ℝ) ^ (Int.log 2 |x| - 52)) : ℝ) := by
      exact_mod_cast this
    positivity

theorem roundHalfEven_intCast (n : Int) : roundHalfEven ((n : Int) : ℝ) = n :=
  roundHalfEven_of_lt (by linarith) (by linarith)

theorem roundHalfEven_ge_of_int {y : ℝ} {n : Int} (h : (n : ℝ) ≤ y) : n ≤ roundHalfEven y := by
  have hfl : n ≤ ⌊y⌋ := Int.le_floor.2 h
  unfold roundHalfEven
  split_ifs <;> omega

theorem roundHalfEven_le_of_int {y : ℝ} {n : Int} (h : y ≤ (n : ℝ)) : roundHalfEven y ≤ n := by
  rcases eq_or_lt_of_le h with e | l
  · rw [e, roundHalfEven_intCast]
  · have hfl : ⌊y⌋ < n := Int.floor_lt.2 l
    unfold roundHalfEven
    split_ifs <;> omega

theorem two_zpow_toNat {d : Int} (hd : 0 ≤ d) :
    (2 : ℝ) ^ d = (((2 : Int) ^ d.toNat : Int) : ℝ) := by
  obtain ⟨n, rfl⟩ := Int.eq_ofNat_of_zero_le hd
  simp

theorem log_two_lt {x : ℝ} {k : Int} (hx : x ≠ 0) (h : |x| < (2 : ℝ) ^ k) :
    Int.log 2 |x| < k :=
  (Int.lt_zpow_iff_log_lt (b := 2) (by norm_num) (abs_pos.2 hx)).1 (by simpa using h)

theorem log_two_ge {x : ℝ} {k : Int} (h : (2 : ℝ) ^ k ≤ |x|) :
    k ≤ Int.log 2 |x| :=
  (Int.zpow_le_iff_le_log (b := 2) (by norm_num) (lt_of_lt_of_le (two_zpow_pos k) h)).1
    (by simpa using h)

/-- A value on the grid of the binade of `x` that is at most `x` is at most the
rounding of `x`. -/
theorem roundDouble_ge_of_grid {x c : ℝ} (hx : x ≠ 0) (m : Int)
    (hc : c = (m : ℝ) * (2 : ℝ) ^ (Int.log 2 |x| - 52)) (h : c ≤ x) : c ≤ roundDouble x := by
  have hs := two_zpow_pos (Int.log 2 |x| - 52)
  have h1 : (m : ℝ) ≤ x / (2 : ℝ) ^ (Int.log 2 |x| - 52) := by
    rw [le_div_iff₀ hs, ← hc]; exact h
  have h2 : ((m : Int) : ℝ) ≤ ((roundHalfEven (x / (2 : ℝ) ^ (Int.log 2 |x| - 52)) : Int) : ℝ) := by
    exact_mod_cast roundHalfEven_ge_of_int h1
  unfold roundDouble
  rw [if_neg hx, hc]
  exact mul_le_mul_of_nonneg_right h2 hs.le

theorem roundDouble_le_of_grid {x c : ℝ} (hx : x ≠ 0) (m : Int)
    (hc : c = (m : ℝ) * (2 : ℝ) ^ (Int.log 2 |x| - 52)) (h : x ≤ c) : roundDouble x ≤ c := by
  have hs := two_zpow_pos (Int.log 2 |x| - 52)
  have h1 : x / (2 : ℝ) ^ (Int.log 2 |x| - 52) ≤ (m : ℝ) := by
    rw [div_le_iff₀ hs, ← hc]; exact h
  have h2 : ((roundHalfEven (x / (2 : ℝ) ^ (Int.log 2 |x| - 52)) : Int) : ℝ) ≤ ((m : Int) : ℝ) := by
    exact_mod_cast roundHalfEven_le_of_int h1
  unfold roundDouble
  rw [if_neg hx, hc]
  exact mul_le_mul_of_nonneg_right h2 hs.le

theorem int_on_grid {x : ℝ} (hx : x ≠ 0) (h : |x| < (2 : ℝ) ^ (53 : Int)) (N : Int) :
    ∃ m : Int, (N : ℝ) = (m : ℝ) * (2 : ℝ) ^ (Int.log 2 |x| - 52) := by
  have hl := log_two_lt hx h
  have hd : 0 ≤ 52 - Int.log 2 |x| := by omega
  refine ⟨N * (2 : Int) ^ (52 - Int.log 2 |x|).toNat, ?_⟩
  push_cast
  have e := two_zpow_toNat hd
  push_cast at e
  rw [← e, mul_assoc, ← zpow_add₀ (by norm_num : (2 : ℝ) ≠ 0)]
  simp

/-- Rounding does not cross an integer: an integer at most `x` is at most the
rounding of `x`. -/
theorem roundDouble_ge_of_int {x : ℝ} {N : Int} (hx : |x| < (2 : ℝ) ^ (53 : Int))
    (h : (N : ℝ) ≤ x) : (N : ℝ) ≤ roundDouble x := by
  by_cases h0 : x = 0
  · rw [h0, roundDouble_zero]; rw [h0] at h; exact h
  · obtain ⟨m, hm⟩ := int_on_grid h0 hx N
    exact roundDouble_ge_of_grid h0 m hm h

theorem roundDouble_le_of_int {x : ℝ} {N : Int} (hx : |x| < (2 : ℝ) ^ (53 : Int))
    (h : x ≤ (N : ℝ)) : roundDouble x ≤ (N : ℝ) := by
  by_cases h0 : x = 0
  · rw [h0, roundDouble_zero]; rw [h0] at h; exact h
  · obtain ⟨m, hm⟩ := int_on_grid h0 hx N
    exact roundDouble_le_of_grid h0 m hm h

/-- A number with an integer significand below `2 ^ 53` is a double: rounding
leaves it as it is. -/
theorem roundDouble_exact {x : ℝ} (k j : Int) (hk : |(k : ℝ)| < (2 : ℝ) ^ (53 : Int))
    (hx : x = (k : ℝ) * (2 : ℝ) ^ j) : roundDouble x = x := by
  by_cases h0 : x = 0
  · rw [h0, roundDouble_zero]
  · have hj := two_zpow_pos j
    have hlt : |x| < (2 : ℝ) ^ (53 + j) := by
      rw [hx, abs_mul, abs_of_pos hj, zpow_add₀ (by norm_num : (2 : ℝ) ≠ 0)]
      exact mul_lt_mul_of_pos_right hk hj
    have hl := log_two_lt h0 hlt
    have hr : roundDouble x = (roundHalfEven (x / (2 : ℝ) ^ (Int.log 2 |x| - 52)) : ℝ) *
        (2 : ℝ) ^ (Int.log 2 |x| - 52) := by
      unfold roundDouble; rw [if_neg h0]
    generalize Int.log 2 |x| = L at hl hr
    have hd : 0 ≤ j - (L - 52) := by omega
    have hs := two_zpow_pos (L - 52)
    have hy : x / (2 : ℝ) ^ (L - 52) = ((k * (2 : Int) ^ (j - (L - 52)).toNat : Int) : ℝ) := by
      have e := two_zpow_toNat hd
      push_cast at e
      push_cast
      rw [← e, hx, mul_div_assoc, ← zpow_sub₀ (by norm_num : (2 : ℝ) ≠ 0) j (L - 52)]
    rw [hr, hy, roundHalfEven_intCast, ← hy]
    field_simp

theorem roundDouble_idem (x : ℝ) : roundDouble (roundDouble x) = roundDouble x := by
  by_cases h0 : x = 0
  · rw [h0, roundDouble_zero, roundDouble_zero]
  · have hpos : 0 < |x| := abs_pos.2 h0
    have hs := two_zpow_pos (Int.log 2 |x| - 52)
    have hup : |x| < (2 : ℝ) ^ (Int.log 2 |x| + 1) := by
      have := Int.lt_zpow_succ_log_self (b := 2) (by norm_num) |x|
      simpa using this
    have hy : |x / (2 : ℝ) ^ (Int.log 2 |x| - 52)| < (2 : ℝ) ^ (53 : Int) := by
      rw [abs_div, abs_of_pos hs, div_lt_iff₀ hs, ← zpow_add₀ (by norm_num : (2 : ℝ) ≠ 0)]
      rw [show (53 : Int) + (Int.log 2 |x| - 52) = Int.log 2 |x| + 1 by ring]
      exact hup
    obtain ⟨y1, y2⟩ := abs_lt.1 hy
    have e53 : (2 : ℝ) ^ (53 : Int) = (((2 : Int) ^ 53 : Int) : ℝ) := by norm_num
    have k1 : -(2 : Int) ^ 53 ≤ roundHalfEven (x / (2 : ℝ) ^ (Int.log 2 |x| - 52)) :=
      roundHalfEven_ge_of_int (by push_cast; rw [e53] at y1; push_cast at y1; linarith)
    have k2 : roundHalfEven (x / (2 : ℝ) ^ (Int.log 2 |x| - 52)) ≤ (2 : Int) ^ 53 :=
      roundHalfEven_le_of_int (by rw [e53] at y2; linarith)
    have hr : roundDouble x = (roundHalfEven (x / (2 : ℝ) ^ (Int.log 2 |x| - 52)) : ℝ) *
        (2 : ℝ) ^ (Int.log 2 |x| - 52) := by
      unfold roundDouble; rw [if_neg h0]
    generalize roundHalfEven (x / (2 : ℝ) ^ (Int.log 2 |x| - 52)) = K at k1 k2 hr
    generalize Int.log 2 |x| = L at hr
    rcases eq_or_lt_of_le k2 with e | l2
    · refine roundDouble_exact 1 (L + 1) (by norm_num) ?_
      rw [hr, e, show L + 1 = 53 + (L - 52) by ring, zpow_add₀ (by norm_num : (2 : ℝ) ≠ 0)]
      norm_num
    · rcases eq_or_lt_of_le k1 with e | l1
      · refine roundDouble_exact (-1) (L + 1) (by norm_num) ?_
        rw [hr, ← e, show L + 1 = 53 + (L - 52) by ring, zpow_add₀ (by norm_num : (2 : ℝ) ≠ 0)]
        norm_num
      · refine roundDouble_exact K (L - 52) ?_ hr
        rw [abs_lt, e53]
        constructor
        · have : (((-(2 : Int) ^ 53 : Int)) : ℝ) < (K : ℝ) := by exact_mod_cast l1
          push_cast at this ⊢; linarith
        · exact_mod_cast l2

/-- A double of magnitude at least `2 ^ e` is a multiple of `2 ^ (e - 52)`. -/
theorem double_on_grid {h : ℝ} {e : Int} (hd : roundDouble h = h) (h0 : h ≠ 0)
    (he : (2 : ℝ) ^ e ≤ |h|) : ∃ K : Int, h = (K : ℝ) * (2 : ℝ) ^ (e - 52) := by
  have hl := log_two_ge he
  have hd0 : 0 ≤ Int.log 2 |h| - e := by omega
  have hr : roundDouble h = (roundHalfEven (h / (2 : ℝ) ^ (Int.log 2 |h| - 52)) : ℝ) *
      (2 : ℝ) ^ (Int.log 2 |h| - 52) := by
    unfold roundDouble; rw [if_neg h0]
  refine ⟨roundHalfEven (h / (2 : ℝ) ^ (Int.log 2 |h| - 52)) *
    (2 : Int) ^ (Int.log 2 |h| - e).toNat, ?_⟩
  have e2 := two_zpow_toNat hd0
  push_cast at e2
  push_cast
  rw [← e2, mul_assoc, ← zpow_add₀ (by norm_num : (2 : ℝ) ≠ 0),
    show Int.log 2 |h| - e + (e - 52) = Int.log 2 |h| - 52 by ring, ← hr, hd]

theorem toDegrees_toRadians (x : ℝ) : toDegrees (toRadians x) = x := by
  unfold toDegrees toRadians
  field_simp

theorem toRadians_toDegrees (x : ℝ) : toRadians (toDegrees x) = x := by
  unfold toDegrees toRadians
  field_simp

theorem toDegrees_le_toDegrees {x y : ℝ} (h : x ≤ y) : toDegrees x ≤ toDegrees y := by
  unfold toDegrees
  exact mul_le_mul_of_nonneg_right h (by positivity)

theorem toDegrees_lt_toDegrees {x y : ℝ} (h : x < y) : toDegrees x < toDegrees y := by
  unfold toDegrees
  exact mul_lt_mul_of_pos_right h (by positivity)

theorem toDegrees_pi : toDegrees π = 180 := by
  unfold toDegrees
  field_simp

theorem toDegrees_neg (x : ℝ) : toDegrees (-x) = -toDegrees x := by
  unfold toDegrees; ring

theorem toDegrees_pi_div_two : toDegrees (π / 2) = 90 := by
  unfold toDegrees
  field_simp; ring

theorem jsMod_of_nonneg_lt {a b : ℝ} (h0 : 0 ≤ a) (h1 : a < b) : jsMod a b = a := by
  have hb : 0 < b := lt_of_le_of_lt h0 h1
  have hq0 : 0 ≤ a / b := div_nonneg h0 hb.le
  have hq1 : a / b < 1 := (div_lt_one hb).2 h1
  have hfl : ⌊a / b⌋ = 0 := by
    rw [Int.floor_eq_iff]; constructor <;> simp [hq0, hq1]
  simp [jsMod, trunc, hq0, hfl]

theorem jsMod_self {b : ℝ} (hb : 0 < b) : jsMod b b = 0 := by
  have : b / b = 1 := div_self hb.ne'
  simp [jsMod, trunc, this]

/-! ### The declination -/

theorem obliquity_pos : 0 < toRadians 23.439 := by
  unfold toRadians; positivity

theorem obliquity_lt : toRadians 23.439 < 0.4102 := by
  unfold toRadians
  have := Real.pi_lt_d2
  linarith

theorem sin_obliquity_pos : 0 < sin (toRadians 23.439) :=
  sin_pos_of_pos_of_lt_pi obliquity_pos (by linarith [obliquity_lt, Real.pi_gt_d2])

theorem sin_obliquity_lt_one : sin (toRadians 23.439) < 1 :=
  lt_trans (sin_lt obliquity_pos) (by linarith [obliquity_lt])

theorem abs_sin_delta_arg_lt_one (jd : Int) :
    |sin (toRadians 23.439) * sin (solarLambda jd)| < 1 := by
  rw [abs_mul, abs_of_pos sin_obliquity_pos]
  calc sin (toRadians 23.439) * |sin (solarLambda jd)|
      ≤ sin (toRadians 23.439) * 1 :=
        mul_le_mul_of_nonneg_left (abs_sin_le_one _) sin_obliquity_pos.le
    _ < 1 := by rw [mul_one]; exact sin_obliquity_lt_one

theorem solarDelta_lt (jd : Int) : solarDelta jd < π / 2 :=
  arcsin_lt_pi_div_two.2 (abs_lt.1 (abs_sin_delta_arg_lt_one jd)).2

theorem solarDelta_gt (jd : Int) : -(π / 2) < solarDelta jd :=
  neg_pi_div_two_lt_arcsin.2 (abs_lt.1 (abs_sin_delta_arg_lt_one jd)).1

theorem cos_solarDelta_pos (jd : Int) : 0 < cos (solarDelta jd) :=
  cos_pos_of_mem_Ioo ⟨solarDelta_gt jd, solarDelta_lt jd⟩

/-! ### The latitude -/

theorem toRadians_lt_pi_div_two {lat : ℝ} (h : lat < 90) : toRadians lat < π / 2 := by
  unfold toRadians
  have := Real.pi_pos
  nlinarith

/-! ### The altitude -/

theorem hourAngleRad_twelve : hourAngleRad 12 = 0 := by
  simp [hourAngleRad, toRadians]

theorem getJulianDay_sameDay {d e : JsDate} (h : d.SameDay e) :
    getJulianDay d = getJulianDay e := by
  obtain ⟨h1, h2, h3⟩ := h
  simp [getJulianDay, h1, h2, h3]

theorem decimalHour_of_fields {d : JsDate} {h : Int} (h1 : d.hours = h)
    (h2 : d.minutes = 0) (h3 : d.seconds = 0) : decimalHour d = h := by
  simp [decimalHour, h1, h2, h3]

/-! ### The azimuth at noon -/

theorem noon_azimuth_arg (lat : ℝ) (jd : Int) :
    azimuthRad lat jd 12 =
      Complex.arg ((sin (toRadians lat) - tan (solarDelta jd) * cos (toRadians lat) : ℝ) : ℂ) := by
  unfold azimuthRad atan2
  rw [hourAngleRad_twelve, sin_zero, cos_zero, one_mul]
  rfl

theorem noon_azimuth_x_mul (lat : ℝ) (jd : Int) :
    (sin (toRadians lat) - tan (solarDelta jd) * cos (toRadians lat)) * cos (solarDelta jd) =
      sin (toRadians lat - solarDelta jd) := by
  have hc := (cos_solarDelta_pos jd).ne'
  rw [sin_sub, tan_eq_sin_div_cos]
  field_simp
  ring

theorem noon_azimuth_north {lat : ℝ} {jd : Int} (h1 : toRadians lat < solarDelta jd)
    (h2 : -π < toRadians lat - solarDelta jd) :
    (solarPositionAt lat jd 12).azimuth = 0 := by
  have hs : sin (toRadians lat - solarDelta jd) < 0 :=
    sin_neg_of_neg_of_neg_pi_lt (by linarith) h2
  rw [← noon_azimuth_x_mul] at hs
  have hx : sin (toRadians lat) - tan (solarDelta jd) * cos (toRadians lat) < 0 := by
    by_contra hcon
    exact absurd hs (not_lt.2 (mul_nonneg (not_lt.1 hcon) (cos_solarDelta_pos jd).le))
  show jsMod (toDegrees (azimuthRad lat jd 12) + 180) 360 = 0
  rw [noon_azimuth_arg, Complex.arg_ofReal_of_neg hx, toDegrees_pi]
  norm_num
  exact jsMod_self (by norm_num)

theorem noon_azimuth_south {lat : ℝ} {jd : Int} (h1 : solarDelta jd < toRadians lat)
    (h2 : toRadians lat - solarDelta jd < π) :
    (solarPositionAt lat jd 12).azimuth = 180 := by
  have hs : 0 < sin (toRadians lat - solarDelta jd) :=
    sin_pos_of_pos_of_lt_pi (by linarith) h2
  rw [← noon_azimuth_x_mul] at hs
  have hx : 0 ≤ sin (toRadians lat) - tan (solarDelta jd) * cos (toRadians lat) :=
    (pos_of_mul_pos_left hs (cos_solarDelta_pos jd).le).le
  show jsMod (toDegrees (azimuthRad lat jd 12) + 180) 360 = 180
  rw [noon_azimuth_arg, Complex.arg_ofReal_of_nonneg hx]
  have : toDegrees 0 + 180 = 180 := by simp [toDegrees]
  rw [this]
  exact jsMod_of_nonneg_lt (by norm_num) (by norm_num)

theorem toRadians_lt_iff (x y : ℝ) : toRadians x < y ↔ x < toDegrees y := by
  constructor
  · intro h
    have := toDegrees_lt_toDegrees h
    rwa [toDegrees_toRadians] at this
  · intro h
    have : toRadians x < toRadians (toDegrees y) := by
      unfold toRadians
      exact mul_lt_mul_of_pos_right h (by positivity)
    rwa [toRadians_toDegrees] at this

/-! ### The June solstice of 2024 -/

theorem jsMod_eq_sub {a b : ℝ} (k : ℕ) (hb : 0 < b) (h1 : (k : ℝ) * b ≤ a)
    (h2 : a < ((k : ℝ) + 1) * b) : jsMod a b = a - b * k := by
  have hq0 : 0 ≤ a / b :=
    div_nonneg (le_trans (mul_nonneg (Nat.cast_nonneg k) hb.le) h1) hb.le
  have hfl : ⌊a / b⌋ = (k : Int) := by
    rw [Int.floor_eq_iff]
    constructor
    · rw [le_div_iff₀ hb]; exact_mod_cast h1
    · rw [div_lt_iff₀ hb]; exact_mod_cast h2
  simp [jsMod, trunc, hq0, hfl]

theorem getJulianDay_solstice {d : JsDate}
    (h : d.fullYear = 2024 ∧ d.month = 5 ∧ d.date = 21) : getJulianDay d = 2460483 := by
  obtain ⟨h1, h2, h3⟩ := h
  simp [getJulianDay, h1, h2, h3]

theorem solarL_solstice : solarL 2460483 = 90.1764612 := by
  unfold solarL solarN
  rw [jsMod_eq_sub 25 (by norm_num) (by norm_num) (by norm_num)]
  norm_num

theorem equation_of_center_bound (g : ℝ) :
    |1.915 * sin g + 0.020 * sin (2 * g)| ≤ 1.935 := by
  have h1 := abs_sin_le_one g
  have h2 := abs_sin_le_one (2 * g)
  have h3 := abs_le.1 h1
  have h4 := abs_le.1 h2
  rw [abs_le]
  constructor <;> linarith

theorem sin_toRadians_near_ninety {x : ℝ} (h1 : 87 ≤ x) (h2 : x ≤ 93) :
    0.998 ≤ sin (toRadians x) := by
  have e : sin (toRadians x) = cos (toRadians (90 - x)) := by
    rw [← cos_pi_div_two_sub]
    congr 1
    unfold toRadians; ring
  rw [e]
  have hb := one_sub_sq_div_two_le_cos (x := toRadians (90 - x))
  have hp := Real.pi_lt_d2
  have hp0 := Real.pi_pos
  have ht : (toRadians (90 - x)) ^ 2 ≤ 0.0028 := by
    have ha : |toRadians (90 - x)| ≤ 0.0525 := by
      unfold toRadians
      rw [abs_mul, abs_of_pos (by positivity : (0:ℝ) < π / 180)]
      have : |90 - x| ≤ 3 := abs_le.2 ⟨by linarith, by linarith⟩
      nlinarith
    have := sq_le_sq' (abs_le.1 ha).1 (abs_le.1 ha).2
    have h5 : (0.0525 : ℝ) ^ 2 ≤ 0.0028 := by norm_num
    linarith
  linarith

theorem sin_obliquity_gt : 0.39 < sin (toRadians 23.439) := by
  have h := sin_gt_sub_cube obliquity_pos (by linarith [obliquity_lt])
  have hu := obliquity_lt
  have hl : 0.4088 < toRadians 23.439 := by
    unfold toRadians
    have := Real.pi_gt_d2
    linarith
  have h3 : (toRadians 23.439) ^ 3 ≤ 0.4102 ^ 3 :=
    pow_le_pow_left₀ obliquity_pos.le hu.le 3
  have h4 : (0.4102 : ℝ) ^ 3 ≤ 0.0691 := by norm_num
  linarith

theorem sin_solarLambda_solstice : 0.998 ≤ sin (solarLambda 2460483) := by
  unfold solarLambda
  rw [solarL_solstice]
  have h := abs_le.1 (equation_of_center_bound (solarG 2460483))
  apply sin_toRadians_near_ninety
  · rw [add_assoc]; linarith [h.1]
  · rw [add_assoc]; linarith [h.2]

theorem solarDelta_solstice_gt : toRadians 12 < solarDelta 2460483 := by
  have hp := Real.pi_lt_d2
  have hp0 := Real.pi_pos
  have h12 : 0 < toRadians 12 := by unfold toRadians; positivity
  have h12' : toRadians 12 < 0.21 := by unfold toRadians; linarith
  have hs : sin (toRadians 12) < 0.21 := lt_trans (sin_lt h12) h12'
  have hprod : 0.38 < sin (toRadians 23.439) * sin (solarLambda 2460483) := by
    nlinarith [sin_obliquity_gt, sin_solarLambda_solstice]
  have hmem := abs_le.1 (abs_sin_delta_arg_lt_one 2460483).le
  have e : toRadians 12 = arcsin (sin (toRadians 12)) :=
    (arcsin_sin (by linarith) (by linarith [Real.pi_gt_d2])).symm
  rw [e]
  unfold solarDelta
  exact strictMonoOn_arcsin ⟨neg_one_le_sin _, sin_le_one _⟩ ⟨hmem.1, hmem.2⟩
    (by linarith)

theorem toRadians_lt_toRadians {x y : ℝ} (h : x < y) : toRadians x < toRadians y := by
  unfold toRadians
  exact mul_lt_mul_of_pos_right h (by positivity)

/-- Claim C4, counterexample: at 12:00 on 2024-06-21 and latitude 1 degree
north, which is below the declination of that date, the azimuth
`getSolarPosition` returns is not 180 degrees. -/
theorem noon_azimuth_below_subsolar_latitude_not_180 :
    (0 : ℝ) < 1 ∧ 1 < (getSolarPosition 1 0 solsticeNoon).declination ∧
      (getSolarPosition 1 0 solsticeNoon).azimuth ≠ 180 := by
  have hjd : getJulianDay solsticeNoon = 2460483 := by decide
  have hn : decimalHour solsticeNoon = 12 := by simp [decimalHour, solsticeNoon]
  have hlt : toRadians 1 < solarDelta 2460483 :=
    lt_trans (toRadians_lt_toRadians (by norm_num)) solarDelta_solstice_gt
  unfold getSolarPosition
  rw [hjd, hn]
  refine ⟨by norm_num, (toRadians_lt_iff _ _).1 hlt, ?_⟩
  rw [noon_azimuth_north hlt (by
    have := solarDelta_lt 2460483
    have := Real.pi_pos
    have : 0 < toRadians 1 := by unfold toRadians; positivity
    linarith)]
  norm_num

/-! ### Formatted times -/

theorem pad_two_digits : ∀ n : Fin 100,
    (padStart (toString ((n : Nat) : Int)) 2 '0').data =
      [Nat.digitChar ((n : Nat) / 10), Nat.digitChar ((n : Nat) % 10)] := by
  decide

theorem digitValue_digitChar : ∀ k : Fin 10,
    digitValue (Nat.digitChar (k : Nat)) = some (((k : Nat) : Int)) := by
  decide

theorem readHHMM_render (H M : Nat) (hH : H < 100) (hM : M < 100) :
    readHHMM (padStart (toString (H : Int)) 2 '0' ++ ":" ++
      padStart (toString (M : Int)) 2 '0') = some (60 * (H : Int) + (M : Int)) := by
  have h1 := pad_two_digits ⟨H, hH⟩
  have h2 := pad_two_digits ⟨M, hM⟩
  have d1 := digitValue_digitChar ⟨H / 10, by omega⟩
  have d2 := digitValue_digitChar ⟨H % 10, by omega⟩
  have d3 := digitValue_digitChar ⟨M / 10, by omega⟩
  have d4 := digitValue_digitChar ⟨M % 10, by omega⟩
  simp only at h1 h2 d1 d2 d3 d4
  unfold readHHMM
  rw [String.data_append, String.data_append, h1, h2]
  simp only [String.data, List.cons_append, List.nil_append, d1, d2, d3, d4]
  congr 1
  push_cast
  omega

theorem fmtHours_range {h : ℝ} (h0 : 0 ≤ h) (h1 : h < 100) :
    0 ≤ fmtHours h ∧ fmtHours h < 100 := by
  unfold fmtHours
  exact ⟨Int.floor_nonneg.2 h0, Int.floor_lt.2 (by exact_mod_cast h1)⟩

theorem fmtMinutes_range (h : ℝ) : 0 ≤ fmtMinutes h ∧ fmtMinutes h < 60 := by
  unfold fmtMinutes fmtHours
  have h1 := Int.floor_le h
  have h2 := Int.lt_floor_add_one h
  constructor
  · apply Int.floor_nonneg.2; nlinarith
  · apply Int.floor_lt.2; push_cast; nlinarith

/-! ### Sunrise and sunset -/

theorem hourAngle_range (lat : ℝ) (jd : Int) :
    0 ≤ hourAngle lat jd ∧ hourAngle lat jd ≤ 12 := by
  unfold hourAngle
  have h0 := arccos_nonneg (cosH lat jd)
  have h1 := toDegrees_le_toDegrees (arccos_le_pi (cosH lat jd))
  rw [toDegrees_pi] at h1
  have h2 : 0 ≤ toDegrees (arccos (cosH lat jd)) := by
    unfold toDegrees; positivity
  constructor
  · positivity
  · linarith

theorem sunrise_isSome_iff (lat lng : ℝ) (date : JsDate) :
    (getSunTimes lat lng date).sunrise.isSome ↔ ¬ |cosH lat (getJulianDay date)| > 1 := by
  unfold getSunTimes
  by_cases h : |cosH lat (getJulianDay date)| > 1
  · simp [h]
  · simp [h, formatTime]

theorem getSunTimes_of_crossing {lat : ℝ} (lng : ℝ) {date : JsDate}
    (h : ¬ |cosH lat (getJulianDay date)| > 1) :
    getSunTimes lat lng date =
      { sunrise := formatTime (some (sunriseHours lat (getJulianDay date)))
        sunset := formatTime (some (sunsetHours lat (getJulianDay date)))
        solarNoon := NoonValue.formatted (formatTime (some (12 : ℝ)))
        dayLength := hourAngle lat (getJulianDay date) * 2
        goldenHourMorning := formatTime (some (sunriseHours lat (getJulianDay date) + 0.5))
        goldenHourEvening := formatTime (some (sunsetHours lat (getJulianDay date) - 0.5))
        blueHourMorning := formatTime (some (sunriseHours lat (getJulianDay date) - 0.5))
        blueHourEvening := formatTime (some (sunsetHours lat (getJulianDay date) + 0.5)) } := by
  unfold getSunTimes
  simp only [h, if_false]

theorem getSunTimes_of_polar {lat : ℝ} (lng : ℝ) {date : JsDate}
    (h : |cosH lat (getJulianDay date)| > 1) :
    getSunTimes lat lng date =
      { sunrise := none
        sunset := none
        solarNoon := NoonValue.number 12
        dayLength := if cosH lat (getJulianDay date) > 1 then 0 else 24
        goldenHourMorning := none
        goldenHourEvening := none
        blueHourMorning := none
        blueHourEvening := none } := by
  unfold getSunTimes
  simp only [h, if_true]

theorem cosH_equator (jd : Int) : cosH 0 jd = 0 := by
  simp [cosH, toRadians]

/-! ### Day length -/

theorem dayLength_range (lat lng : ℝ) (date : JsDate) :
    0 ≤ (getSunTimes lat lng date).dayLength ∧ (getSunTimes lat lng date).dayLength ≤ 24 := by
  obtain ⟨t0, t1⟩ := hourAngle_range lat (getJulianDay date)
  by_cases hc : |cosH lat (getJulianDay date)| > 1
  · rw [getSunTimes_of_polar lng hc]
    by_cases h1 : cosH lat (getJulianDay date) > 1
    · simp only [h1, if_true]; norm_num
    · simp only [h1, if_false]; norm_num
  · rw [getSunTimes_of_crossing lng hc]
    constructor <;> simp only <;> linarith

/-- Claim C7: the `dayLength` of `getSunTimes` is `sunset - sunrise`, that is
`2 * hourAngle`, when sunrise and sunset exist; exactly 24 when `cosH < -1`;
exactly 0 when `cosH > 1`; and always between 0 and 24. -/
theorem dayLength_cases (lat lng : ℝ) (date : JsDate) :
    ((getSunTimes lat lng date).sunrise.isSome ∧ (getSunTimes lat lng date).sunset.isSome →
      (getSunTimes lat lng date).dayLength =
          sunsetHours lat (getJulianDay date) - sunriseHours lat (getJulianDay date) ∧
        (getSunTimes lat lng date).dayLength = 2 * hourAngle lat (getJulianDay date)) ∧
    (cosH lat (getJulianDay date) < -1 → (getSunTimes lat lng date).dayLength = 24) ∧
    (cosH lat (getJulianDay date) > 1 → (getSunTimes lat lng date).dayLength = 0) ∧
    0 ≤ (getSunTimes lat lng date).dayLength ∧
    (getSunTimes lat lng date).dayLength ≤ 24 := by
  obtain ⟨t0, t1⟩ := hourAngle_range lat (getJulianDay date)
  refine ⟨?_, ?_, ?_, ?_⟩
  · intro h
    have hc := (sunrise_isSome_iff lat lng date).1 h.1
    rw [getSunTimes_of_crossing lng hc]
    unfold sunriseHours sunsetHours
    constructor <;> ring
  · intro h
    have hc : |cosH lat (getJulianDay date)| > 1 := by
      rw [gt_iff_lt, lt_abs]; right; linarith
    rw [getSunTimes_of_polar lng hc]
    have : ¬ cosH lat (getJulianDay date) > 1 := by intro h'; linarith
    simp only [this, if_false]
  · intro h
    have hc : |cosH lat (getJulianDay date)| > 1 := by
      rw [gt_iff_lt, lt_abs]; left; exact h
    rw [getSunTimes_of_polar lng hc]
    simp only [h, if_true]
  · exact dayLength_range lat lng date

/-! ### The polar day at 78 degrees north -/

theorem tan_toRadians_78 : tan (toRadians 78) = (tan (toRadians 12))⁻¹ := by
  rw [← tan_pi_div_two_sub]
  congr 1
  unfold toRadians; ring

theorem cosH_78_solstice : cosH 78 2460483 < -1 := by
  have hp := Real.pi_pos
  have h12 : 0 < toRadians 12 := by unfold toRadians; positivity
  have h12' : toRadians 12 < π / 2 := toRadians_lt_pi_div_two (by norm_num)
  have ht : 0 < tan (toRadians 12) := tan_pos_of_pos_of_lt_pi_div_two h12 h12'
  have hlt : tan (toRadians 12) < tan (solarDelta 2460483) :=
    tan_lt_tan_of_lt_of_lt_pi_div_two (by linarith) (solarDelta_lt _) solarDelta_solstice_gt
  unfold cosH
  rw [tan_toRadians_78]
  have : 1 < (tan (toRadians 12))⁻¹ * tan (solarDelta 2460483) := by
    rw [inv_mul_eq_div, one_lt_div ht]
    exact hlt
  linarith

/-- Claim C8: at latitude 78 degrees north on 2024-06-21, for any longitude
and time of day, `getSunTimes` does not fail and takes the outcome of the sun
always above the horizon: `cosH < -1`, no sunrise, no sunset, and a day length
of 24 hours. -/
theorem polar_day_at_78_north (lng : ℝ) (date : JsDate)
    (hd : date.fullYear = 2024 ∧ date.month = 5 ∧ date.date = 21) :
    cosH 78 (getJulianDay date) < -1 ∧
    (∃ t, getSunTimesCall 78 lng date = Except.ok t ∧
      t.sunrise = none ∧ t.sunset = none ∧ t.dayLength = 24) := by
  have hjd := getJulianDay_solstice hd
  have hc : cosH 78 (getJulianDay date) < -1 := by rw [hjd]; exact cosH_78_solstice
  have habs : |cosH 78 (getJulianDay date)| > 1 := by
    rw [gt_iff_lt, lt_abs]; right; linarith
  refine ⟨hc, getSunTimes 78 lng date, rfl, ?_⟩
  rw [getSunTimes_of_polar lng habs]
  have : ¬ cosH 78 (getJulianDay date) > 1 := by intro h'; linarith
  refine ⟨rfl, rfl, ?_⟩
  show (if cosH 78 (getJulianDay date) > 1 then (0 : ℝ) else 24) = 24
  rw [if_neg this]

/-- Claim C8, witness: noon of 2024-06-21 at longitude 0. -/
theorem polar_day_at_78_north_witness :
    cosH 78 (getJulianDay solsticeNoon) < -1 ∧
    (∃ t, getSunTimesCall 78 0 solsticeNoon = Except.ok t ∧
      t.sunrise = none ∧ t.sunset = none ∧ t.dayLength = 24) :=
  polar_day_at_78_north 0 solsticeNoon ⟨rfl, rfl, rfl⟩

/-! ### The equator -/

theorem hourAngle_equator (jd : Int) : hourAngle 0 jd = 6 := by
  unfold hourAngle
  rw [cosH_equator, arccos_zero, toDegrees_pi_div_two]
  norm_num

theorem formatTime_six : formatTime (some (6 : ℝ)) = some "06:00" := by
  have h1 : fmtHours (6 : ℝ) = 6 := by
    unfold fmtHours
    exact Int.floor_eq_iff.2 ⟨by norm_num, by norm_num⟩
  have h2 : fmtMinutes (6 : ℝ) = 0 := by
    unfold fmtMinutes
    rw [h1]
    exact Int.floor_eq_iff.2 ⟨by norm_num, by norm_num⟩
  simp only [formatTime, h1, h2]
  decide

theorem formatTime_eighteen : formatTime (some (18 : ℝ)) = some "18:00" := by
  have h1 : fmtHours (18 : ℝ) = 18 := by
    unfold fmtHours
    exact Int.floor_eq_iff.2 ⟨by norm_num, by norm_num⟩
  have h2 : fmtMinutes (18 : ℝ) = 0 := by
    unfold fmtMinutes
    rw [h1]
    exact Int.floor_eq_iff.2 ⟨by norm_num, by norm_num⟩
  simp only [formatTime, h1, h2]
  decide

/-- Claim C9: at latitude 0, for every date (so also on 2024-03-20),
`getSunTimes` returns a day length of 12 hours, sunrise "06:00" and sunset
"18:00". -/
theorem equator_day_is_twelve_hours (lng : ℝ) (date : JsDate) :
    (getSunTimes 0 lng date).dayLength = 12 ∧
    (getSunTimes 0 lng date).sunrise = some "06:00" ∧
    (getSunTimes 0 lng date).sunset = some "18:00" := by
  have hc : ¬ |cosH 0 (getJulianDay date)| > 1 := by
    rw [cosH_equator]; norm_num
  rw [getSunTimes_of_crossing lng hc]
  simp only [sunriseHours, sunsetHours, hourAngle_equator]
  refine ⟨by norm_num, ?_, ?_⟩
  · rw [show (12 : ℝ) - 6 = 6 by norm_num]; exact formatTime_six
  · rw [show (12 : ℝ) + 6 = 18 by norm_num]; exact formatTime_eighteen

/-! ### No validation -/

/-- Claim C2, amended: `getSolarPosition` and `getSunTimes` validate nothing.
For every latitude, also outside [-90, 90], the call does not fail:
`getSolarPosition` returns the position its formulas give at that latitude and
`getSunTimes` returns times with a day length between 0 and 24. -/
theorem no_latitude_validation (lat lng : ℝ) (date : JsDate) :
    getSolarPositionCall lat lng date =
        Except.ok (solarPositionAt lat (getJulianDay date) (decimalHour date)) ∧
    (∃ t, getSunTimesCall lat lng date = Except.ok t ∧ 0 ≤ t.dayLength ∧ t.dayLength ≤ 24) :=
  ⟨rfl, getSunTimes lat lng date, rfl, dayLength_range lat lng date⟩

/-- Claim C2, counterexample: at latitude 95 both `getSolarPosition` and
`getSunTimes` return a result, and neither ends in a validation error for the
latitude. -/
theorem latitude_95_is_not_rejected :
    (∃ p, getSolarPositionCall 95 0 solsticeNoon = Except.ok p) ∧
    (∃ t, getSunTimesCall 95 0 solsticeNoon = Except.ok t) ∧
    getSolarPositionCall 95 0 solsticeNoon ≠ Except.error InvalidInput.latitude ∧
    getSunTimesCall 95 0 solsticeNoon ≠ Except.error InvalidInput.latitude := by
  refine ⟨⟨_, rfl⟩, ⟨_, rfl⟩, ?_, ?_⟩
  · intro h; cases h
  · intro h; cases h

/-! ### The sun path -/

theorem getSunPathLoop_eq (lat lng : ℝ) (baseDate : JsDate) :
    ∀ (n k : Nat), 96 - k = n → k ≤ 96 →
      getSunPathLoop lat lng baseDate k =
        (List.range' k n).filterMap (sunPathSampleAt lat lng baseDate) := by
  intro n
  induction n with
  | zero =>
    intro k hk hle
    have : k = 96 := by omega
    subst this
    rw [getSunPathLoop]
    norm_num
  | succ n ih =>
    intro k hk hle
    have hlt : k < 96 := by omega
    have hq : (k : ℚ) * 0.25 < 24 := by
      have : (k : ℚ) < 96 := by exact_mod_cast hlt
      linarith
    rw [getSunPathLoop, dif_pos hq, List.range'_succ, List.filterMap_cons]
    have ih' := ih (k + 1) (by omega) (by omega)
    by_cases he : (getSolarPosition lat lng (baseDate.plusMs ((k : Int) * 900000))).elevation > 0
    · simp only [he, if_true, sunPathSampleAt, ih']
    · simp only [he, if_false, sunPathSampleAt, ih']

theorem getSunPath_eq (lat lng : ℝ) (date : JsDate) :
    getSunPath lat lng date =
      (List.range 96).filterMap (sunPathSampleAt lat lng date.setHoursZero) := by
  unfold getSunPath
  rw [getSunPathLoop_eq lat lng _ 96 0 rfl (by norm_num), List.range_eq_range']

theorem length_filterMap_eq_length_filter {α β : Type} (f : α → Option β) (l : List α) :
    (l.filterMap f).length = (l.filter fun a => (f a).isSome).length := by
  induction l with
  | nil => rfl
  | cons a l ih =>
    rw [List.filterMap_cons, List.filter_cons]
    cases h : f a with
    | none => simpa using ih
    | some b => simpa using ih

theorem sunPathSampleAt_isSome (lat lng : ℝ) (baseDate : JsDate) (k : Nat) :
    (sunPathSampleAt lat lng baseDate k).isSome =
      decide (0 < (getSolarPosition lat lng (baseDate.plusMs ((k : Int) * 900000))).elevation) := by
  unfold sunPathSampleAt
  by_cases he : (getSolarPosition lat lng (baseDate.plusMs ((k : Int) * 900000))).elevation > 0
  · simp [he]
  · simp [he]

theorem midnight_elevation_equator (jd : Int) : (solarPositionAt 0 jd 0).elevation = 0 := by
  have hH : hourAngleRad 0 = -π := by
    unfold hourAngleRad toRadians; ring
  have hs : altitudeSine 0 jd 0 = -cos (solarDelta jd) := by
    unfold altitudeSine
    rw [hH, cos_neg, cos_pi]
    simp [toRadians]
  have hneg : altitudeRad 0 jd 0 < 0 := by
    unfold altitudeRad
    rw [hs]
    exact arcsin_lt_zero.2 (by linarith [cos_solarDelta_pos jd])
  show max 0 (toDegrees (altitudeRad 0 jd 0)) = 0
  apply max_eq_left
  have := toDegrees_lt_toDegrees hneg
  simp only [toDegrees, zero_mul] at this ⊢
  exact this.le

/-- Claim C10, amended: `getSunPath` returns at most 96 samples, one for each
of the 96 quarter-hour instants of the day at which the elevation returned by
`getSolarPosition` is greater than 0. -/
theorem getSunPath_length (lat lng : ℝ) (date : JsDate) :
    (getSunPath lat lng date).length =
        ((List.range 96).filter fun k : Nat =>
          decide (0 < (getSolarPosition lat lng
            (date.setHoursZero.plusMs ((k : Int) * 900000))).elevation)).length ∧
    (getSunPath lat lng date).length ≤ 96 := by
  have hf : (fun k => (sunPathSampleAt lat lng date.setHoursZero k).isSome) =
      fun k : Nat => decide (0 < (getSolarPosition lat lng
        (date.setHoursZero.plusMs ((k : Int) * 900000))).elevation) :=
    funext (sunPathSampleAt_isSome lat lng _)
  rw [getSunPath_eq, length_filterMap_eq_length_filter, hf]
  constructor
  · rfl
  · calc _ ≤ (List.range 96).length := List.length_filter_le _ _
      _ = 96 := List.length_range 96

/-- Claim C10, counterexample: on the equator on 2024-03-20 the sample of
local midnight is dropped, so `getSunPath` does not return 96 samples. -/
theorem getSunPath_equator_fewer_than_96 :
    (getSunPath 0 0 equinoxNoon).length ≠ 96 := by
  have h0 : sunPathSampleAt 0 0 equinoxNoon.setHoursZero 0 = none := by
    have hd : decimalHour (equinoxNoon.setHoursZero.plusMs (((0 : Nat) : Int) * 900000)) = 0 := by
      simp [decimalHour, JsDate.plusMs, JsDate.setHoursZero]
    unfold sunPathSampleAt getSolarPosition
    rw [hd, midnight_elevation_equator]
    simp
  rw [getSunPath_eq, show (96 : Nat) = 95 + 1 from rfl, List.range_succ_eq_map,
    List.filterMap_cons_none h0]
  have := List.length_filterMap_le (sunPathSampleAt 0 0 equinoxNoon.setHoursZero)
    (List.map Nat.succ (List.range 95))
  simp only [List.length_map, List.length_range] at this
  omega

/-! ### Instances of the statements above -/

theorem cosH_neg_lat (lat : ℝ) (jd : Int) : cosH (-lat) jd = -cosH lat jd := by
  unfold cosH toRadians
  rw [show -lat * (π / 180) = -(lat * (π / 180)) by ring, tan_neg]
  ring

/-- Claim C7, witness: each of the three cases occurs.  The equator on
2024-03-20 has a sunrise and a sunset; on 2024-06-21 latitude 78 north has
`cosH < -1` and latitude 78 south has `cosH > 1`. -/
theorem dayLength_cases_witness :
    (getSunTimes 0 0 equinoxNoon).dayLength = 2 * hourAngle 0 (getJulianDay equinoxNoon) ∧
    (getSunTimes 78 0 solsticeNoon).dayLength = 24 ∧
    (getSunTimes (-78) 0 solsticeNoon).dayLength = 0 :=
  have hjd : getJulianDay solsticeNoon = 2460483 := by decide
  ⟨((dayLength_cases 0 0 equinoxNoon).1 (by
      have h : ¬ |cosH 0 (getJulianDay equinoxNoon)| > 1 := by
        rw [cosH_equator]; norm_num
      rw [getSunTimes_of_crossing 0 h]
      exact ⟨rfl, rfl⟩)).2,
    (dayLength_cases 78 0 solsticeNoon).2.1 (by rw [hjd]; exact cosH_78_solstice),
    (dayLength_cases (-78) 0 solsticeNoon).2.2.1 (by
      rw [hjd, cosH_neg_lat]
      linarith [cosH_78_solstice])⟩

/-! ### The Julian Day Number -/

theorem getJulianDay_j2000 : getJulianDay j2000Noon = 2451545 := by decide

theorem nextDay_onCalendar {d : JsDate} (h : d.OnCalendar) : d.nextDay.OnCalendar := by
  obtain ⟨h1, h2, h3, h4⟩ := h
  unfold JsDate.nextDay
  by_cases hlt : d.date < daysInMonth d.fullYear d.month
  · rw [if_pos hlt]
    refine ⟨h1, h2, ?_, ?_⟩
    · show 1 ≤ d.date + 1; omega
    · show d.date + 1 ≤ daysInMonth d.fullYear d.month; omega
  · rw [if_neg hlt]
    by_cases hm : d.month < 11
    · rw [if_pos hm]
      refine ⟨by show 0 ≤ d.month + 1; omega, by show d.month + 1 ≤ 11; omega, le_refl _, ?_⟩
      show (1 : Int) ≤ daysInMonth d.fullYear (d.month + 1)
      unfold daysInMonth
      split_ifs <;> omega
    · rw [if_neg hm]
      refine ⟨le_refl _, ?_, le_refl _, ?_⟩
      · show (0 : Int) ≤ 11; decide
      show (1 : Int) ≤ daysInMonth (d.fullYear + 1) 0
      unfold daysInMonth
      simp

theorem getJulianDay_nextDay {d : JsDate} (h : d.OnCalendar) :
    getJulianDay d.nextDay = getJulianDay d + 1 := by
  obtain ⟨h1, h2, h3, h4⟩ := h
  unfold JsDate.nextDay
  by_cases hlt : d.date < daysInMonth d.fullYear d.month
  · rw [if_pos hlt]
    simp only [getJulianDay]
    omega
  · rw [if_neg hlt]
    have hd : d.date = daysInMonth d.fullYear d.month := by omega
    by_cases hm : d.month < 11
    · rw [if_pos hm]
      simp only [getJulianDay]
      rw [hd]
      unfold daysInMonth isLeapYear
      have hcases : d.month = 0 ∨ d.month = 1 ∨ d.month = 2 ∨ d.month = 3 ∨ d.month = 4 ∨
          d.month = 5 ∨ d.month = 6 ∨ d.month = 7 ∨ d.month = 8 ∨ d.month = 9 ∨
          d.month = 10 := by omega
      rcases hcases with hc | hc | hc | hc | hc | hc | hc | hc | hc | hc | hc <;>
        rw [hc] <;> split_ifs <;> omega
    · rw [if_neg hm]
      have hmm : d.month = 11 := by omega
      simp only [getJulianDay]
      rw [hd, hmm]
      unfold daysInMonth
      simp only [show ¬ ((11 : Int) = 1) by decide, if_false,
        show ¬ ((11 : Int) = 3 ∨ (11 : Int) = 5 ∨ (11 : Int) = 8 ∨ (11 : Int) = 10) by decide]
      omega

/-- Claim C12: `getJulianDay` is the Julian Day Number of the Gregorian
calendar day of the date: 2451545 on 2000-01-01, and for every day of the
Gregorian calendar (month ends, year ends and 29 February of the leap years
included) the next calendar day is again a day of the calendar and has the
value one greater. -/
theorem getJulianDay_is_julian_day_number (d : JsDate) (h : d.OnCalendar) :
    getJulianDay j2000Noon = 2451545 ∧ solarN (getJulianDay j2000Noon) = 0 ∧
    d.nextDay.OnCalendar ∧ getJulianDay d.nextDay = getJulianDay d + 1 := by
  refine ⟨getJulianDay_j2000, ?_, nextDay_onCalendar h, getJulianDay_nextDay h⟩
  rw [getJulianDay_j2000]
  unfold solarN
  norm_num

/-- Claim C12, witness: 29 February 2024 is followed by 1 March 2024, and
28 February 2100 (not a leap year) by 1 March 2100. -/
theorem getJulianDay_is_julian_day_number_witness :
    ({ j2000Noon with fullYear := 2024, month := 1, date := 29 } : JsDate).nextDay.date = 1 ∧
    getJulianDay ({ j2000Noon with fullYear := 2024, month := 1, date := 29 } : JsDate).nextDay =
      getJulianDay { j2000Noon with fullYear := 2024, month := 1, date := 29 } + 1 ∧
    ({ j2000Noon with fullYear := 2100, month := 1, date := 28 } : JsDate).nextDay.month = 2 ∧
    getJulianDay ({ j2000Noon with fullYear := 2100, month := 1, date := 28 } : JsDate).nextDay =
      getJulianDay { j2000Noon with fullYear := 2100, month := 1, date := 28 } + 1 :=
  ⟨by decide,
    (getJulianDay_is_julian_day_number
      { j2000Noon with fullYear := 2024, month := 1, date := 29 } (by decide)).2.2.2,
    by decide,
    (getJulianDay_is_julian_day_number
      { j2000Noon with fullYear := 2100, month := 1, date := 28 } (by decide)).2.2.2⟩

/-! ### The day number has no fraction -/

/-- Claim C13, amended: the Julian Day value `getSolarPosition` derives is the
whole Julian Day Number of the calendar date.  For two instants on the same
calendar date it is the same, whatever the times of day, and so are `n`, the
mean longitude `L`, the mean anomaly `g` and the declination returned. -/
theorem julian_day_ignores_time_of_day (lat lng : ℝ) (d e : JsDate) (h : d.SameDay e) :
    getJulianDay d = getJulianDay e ∧
    solarN (getJulianDay d) = solarN (getJulianDay e) ∧
    solarL (getJulianDay d) = solarL (getJulianDay e) ∧
    solarG (getJulianDay d) = solarG (getJulianDay e) ∧
    (getSolarPosition lat lng d).declination = (getSolarPosition lat lng e).declination := by
  have hjd := getJulianDay_sameDay h
  unfold getSolarPosition
  rw [hjd]
  exact ⟨rfl, rfl, rfl, rfl, rfl⟩

/-- Claim C13, counterexample: noon and local midnight of 2024-03-20 are half
a day apart, and their Julian Day values do not differ by that fraction. -/
theorem julian_day_noon_equals_midnight :
    decimalHour equinoxNoon - decimalHour equinoxNoon.setHoursZero = 12 ∧
    ((getJulianDay equinoxNoon : ℝ) - (getJulianDay equinoxNoon.setHoursZero : ℝ) ≠
      (decimalHour equinoxNoon - decimalHour equinoxNoon.setHoursZero) / 24) := by
  have h1 : decimalHour equinoxNoon = 12 := by simp [decimalHour, equinoxNoon]
  have h2 : decimalHour equinoxNoon.setHoursZero = 0 := by
    simp [decimalHour, JsDate.setHoursZero]
  have h3 : getJulianDay equinoxNoon.setHoursZero = getJulianDay equinoxNoon := by decide
  rw [h1, h2, h3]
  norm_num

/-- Claim C13, witness of the amended statement: noon and local midnight of
2024-03-20. -/
theorem julian_day_ignores_time_of_day_witness :
    getJulianDay equinoxNoon = getJulianDay equinoxNoon.setHoursZero :=
  (julian_day_ignores_time_of_day 0 0 equinoxNoon equinoxNoon.setHoursZero
    ⟨rfl, rfl, rfl⟩).1

/-! ### The longitude is not used -/

/-- Claim C14, amended: the hour angle used by `getSolarPosition` is computed
from the clock time of the `Date` alone, `H = 15 degrees * (hour - 12)` with
`hour` from `getHours`, `getMinutes` and `getSeconds`; the longitude is not
used, and for a fixed instant and latitude the position returned is the same
for every longitude. -/
theorem position_ignores_longitude (lat lng lng' : ℝ) (date : JsDate) :
    getSolarPosition lat lng date = getSolarPosition lat lng' date ∧
    getSolarPosition lat lng date =
      solarPositionAt lat (getJulianDay date) (decimalHour date) ∧
    hourAngleRad (decimalHour date) =
      toRadians (15 * (((date.hours : ℝ) + (date.minutes : ℝ) / 60 +
        (date.seconds : ℝ) / 3600) - 12)) :=
  ⟨rfl, rfl, rfl⟩

/-- Claim C14, counterexample: at latitude 40.7128 at noon of 2024-06-21 no
two longitudes give a different azimuth or a different elevation. -/
theorem no_longitude_changes_position :
    ¬ ∃ lng lng' : ℝ,
      (getSolarPosition 40.7128 lng solsticeNoon).azimuth ≠
          (getSolarPosition 40.7128 lng' solsticeNoon).azimuth ∨
        (getSolarPosition 40.7128 lng solsticeNoon).elevation ≠
          (getSolarPosition 40.7128 lng' solsticeNoon).elevation := by
  rintro ⟨lng, lng', h | h⟩
  · exact h rfl
  · exact h rfl

/-! ### The elevation is clamped at the horizon -/

theorem midnight_altitude_equator_neg (jd : Int) : toDegrees (altitudeRad 0 jd 0) < 0 := by
  have hH : hourAngleRad 0 = -π := by
    unfold hourAngleRad toRadians; ring
  have hs : altitudeSine 0 jd 0 = -cos (solarDelta jd) := by
    unfold altitudeSine
    rw [hH, cos_neg, cos_pi]
    simp [toRadians]
  have hneg : altitudeRad 0 jd 0 < 0 := by
    unfold altitudeRad
    rw [hs]
    exact arcsin_lt_zero.2 (by linarith [cos_solarDelta_pos jd])
  have := toDegrees_lt_toDegrees hneg
  simpa [toDegrees] using this

/-- Claim C15, amended: whenever the geometric altitude
`asin(sin(decl)*sin(lat) + cos(decl)*cos(lat)*cos(H))` is negative,
`getSolarPosition` returns elevation 0; in general the elevation returned is
the larger of 0 and the altitude in degrees. -/
theorem elevation_is_clamped (lat lng : ℝ) (date : JsDate) :
    (getSolarPosition lat lng date).elevation =
        max 0 (toDegrees (arcsin (sin (solarDelta (getJulianDay date)) * sin (toRadians lat) +
          cos (solarDelta (getJulianDay date)) * cos (toRadians lat) *
            cos (hourAngleRad (decimalHour date))))) ∧
    (toDegrees (altitudeRad lat (getJulianDay date) (decimalHour date)) < 0 →
      (getSolarPosition lat lng date).elevation = 0) :=
  ⟨rfl, fun h => max_eq_left h.le⟩

/-- Claim C15, counterexample: on the equator at local midnight of 2024-03-20
the altitude is negative and the elevation returned is not that altitude. -/
theorem negative_altitude_not_returned :
    toDegrees (altitudeRad 0 (getJulianDay equinoxNoon.setHoursZero)
        (decimalHour equinoxNoon.setHoursZero)) < 0 ∧
    (getSolarPosition 0 0 equinoxNoon.setHoursZero).elevation ≠
      toDegrees (altitudeRad 0 (getJulianDay equinoxNoon.setHoursZero)
        (decimalHour equinoxNoon.setHoursZero)) := by
  have h2 : decimalHour equinoxNoon.setHoursZero = 0 := by
    simp [decimalHour, JsDate.setHoursZero]
  have hneg := midnight_altitude_equator_neg (getJulianDay equinoxNoon.setHoursZero)
  rw [h2]
  refine ⟨hneg, ?_⟩
  have h0 : (getSolarPosition 0 0 equinoxNoon.setHoursZero).elevation = 0 := by
    unfold getSolarPosition
    rw [h2]
    exact max_eq_left hneg.le
  rw [h0]
  exact hneg.ne'

/-- Claim C15, witness of the amended statement: the equator at local midnight
of 2024-03-20. -/
theorem elevation_is_clamped_witness :
    (getSolarPosition 0 0 equinoxNoon.setHoursZero).elevation = 0 :=
  (elevation_is_clamped 0 0 equinoxNoon.setHoursZero).2 (by
    have h2 : decimalHour equinoxNoon.setHoursZero = 0 := by
      simp [decimalHour, JsDate.setHoursZero]
    rw [h2]
    exact midnight_altitude_equator_neg _)

/-! ### The declination -/

theorem obliquity_lt_pi_div_two : toRadians 23.439 < π / 2 :=
  toRadians_lt_pi_div_two (by norm_num)

theorem abs_solarDelta_le (jd : Int) : |solarDelta jd| ≤ toRadians 23.439 := by
  have hpos := sin_obliquity_pos
  have hx : |sin (toRadians 23.439) * sin (solarLambda jd)| ≤ sin (toRadians 23.439) := by
    rw [abs_mul, abs_of_pos hpos]
    calc sin (toRadians 23.439) * |sin (solarLambda jd)|
        ≤ sin (toRadians 23.439) * 1 :=
          mul_le_mul_of_nonneg_left (abs_sin_le_one _) hpos.le
      _ = sin (toRadians 23.439) := mul_one _
  have he : arcsin (sin (toRadians 23.439)) = toRadians 23.439 :=
    arcsin_sin (by linarith [obliquity_pos, Real.pi_pos]) obliquity_lt_pi_div_two.le
  obtain ⟨h1, h2⟩ := abs_le.1 hx
  rw [abs_le]
  constructor
  · have := Real.monotone_arcsin h1
    rw [arcsin_neg, he] at this
    exact this
  · have := Real.monotone_arcsin h2
    rw [he] at this
    exact this

theorem abs_declination_le (jd : Int) : |toDegrees (solarDelta jd)| ≤ 23.439 := by
  obtain ⟨h1, h2⟩ := abs_le.1 (abs_solarDelta_le jd)
  have a1 := toDegrees_le_toDegrees h1
  have a2 := toDegrees_le_toDegrees h2
  rw [toDegrees_neg, toDegrees_toRadians] at a1
  rw [toDegrees_toRadians] at a2
  exact abs_le.2 ⟨a1, a2⟩

/-- Claim C16: the declination `getSolarPosition` returns is
`asin(sin(23.439 deg) * sin(lambda))`, in degrees, for the ecliptic longitude
`lambda = L + 1.915*sin(g) + 0.020*sin(2g)` of the date; its absolute value
never exceeds 23.439 degrees; and it is the same for every latitude and
longitude. -/
theorem declination_formula_and_bound (lat lng : ℝ) (date : JsDate) :
    (getSolarPosition lat lng date).declination =
        toDegrees (arcsin (sin (toRadians 23.439) *
          sin (toRadians (solarL (getJulianDay date) +
            1.915 * sin (solarG (getJulianDay date)) +
            0.020 * sin (2 * solarG (getJulianDay date)))))) ∧
    |(getSolarPosition lat lng date).declination| ≤ 23.439 ∧
    (∀ lat' lng' : ℝ, (getSolarPosition lat' lng' date).declination =
      (getSolarPosition lat lng date).declination) :=
  ⟨rfl, abs_declination_le _, fun _ _ => rfl⟩

/-! ### New York at noon of the June solstice -/

theorem altitudeSine_noon (lat : ℝ) (jd : Int) :
    altitudeSine lat jd 12 = cos (toRadians lat - solarDelta jd) := by
  unfold altitudeSine
  rw [hourAngleRad_twelve, cos_zero, cos_sub]
  ring

theorem altitudeRad_noon {lat : ℝ} {jd : Int} (h : |toRadians lat - solarDelta jd| ≤ π) :
    altitudeRad lat jd 12 = π / 2 - |toRadians lat - solarDelta jd| := by
  unfold altitudeRad
  rw [altitudeSine_noon, ← cos_abs, arcsin_eq_pi_div_two_sub_arccos,
    arccos_cos (abs_nonneg _) h]

theorem toDegrees_sub (x y : ℝ) : toDegrees (x - y) = toDegrees x - toDegrees y := by
  unfold toDegrees; ring

theorem sin_obliquity_gt_fine : 0.396 < sin (toRadians 23.439) := by
  have hl : 0.40907 < toRadians 23.439 := by
    unfold toRadians
    have := Real.pi_gt_d4
    linarith
  have hu : toRadians 23.439 < 0.409091 := by
    unfold toRadians
    have := Real.pi_lt_d4
    linarith
  have h0 : 0 ≤ toRadians 23.439 := by linarith
  have hb := abs_le.1 (sin_bound (x := toRadians 23.439)
    (by rw [abs_of_nonneg h0]; linarith))
  rw [abs_of_nonneg h0] at hb
  have h3 : (toRadians 23.439) ^ 3 ≤ 0.409091 ^ 3 := pow_le_pow_left₀ h0 hu.le 3
  have h4 : (toRadians 23.439) ^ 4 ≤ 0.409091 ^ 4 := pow_le_pow_left₀ h0 hu.le 4
  have n3 : (0.409091 : ℝ) ^ 3 ≤ 0.068465 := by norm_num
  have n4 : (0.409091 : ℝ) ^ 4 ≤ 0.028009 := by norm_num
  linarith [hb.1]

theorem sin_toRadians_22_lt : sin (toRadians 22.7128) < 0.388 := by
  have hl : 0.3964 < toRadians 22.7128 := by
    unfold toRadians
    have := Real.pi_gt_d4
    linarith
  have hu : toRadians 22.7128 < 0.396415 := by
    unfold toRadians
    have := Real.pi_lt_d4
    linarith
  have h0 : 0 ≤ toRadians 22.7128 := by linarith
  have hb := abs_le.1 (sin_bound (x := toRadians 22.7128)
    (by rw [abs_of_nonneg h0]; linarith))
  rw [abs_of_nonneg h0] at hb
  have h3 : (0.3964 : ℝ) ^ 3 ≤ (toRadians 22.7128) ^ 3 :=
    pow_le_pow_left₀ (by norm_num) hl.le 3
  have h4 : (toRadians 22.7128) ^ 4 ≤ 0.396415 ^ 4 := pow_le_pow_left₀ h0 hu.le 4
  have n3 : (0.062286 : ℝ) ≤ 0.3964 ^ 3 := by norm_num
  have n4 : (0.396415 : ℝ) ^ 4 ≤ 0.024695 := by norm_num
  linarith [hb.2]

theorem solarDelta_solstice_gt_fine : toRadians 22.7128 < solarDelta 2460483 := by
  have hp := Real.pi_gt_d2
  have h0 : 0 < toRadians 22.7128 := by unfold toRadians; positivity
  have h1 : toRadians 22.7128 < π / 2 := toRadians_lt_pi_div_two (by norm_num)
  have hprod : 0.388 < sin (toRadians 23.439) * sin (solarLambda 2460483) := by
    nlinarith [sin_obliquity_gt_fine, sin_solarLambda_solstice]
  have hmem := abs_le.1 (abs_sin_delta_arg_lt_one 2460483).le
  have e : toRadians 22.7128 = arcsin (sin (toRadians 22.7128)) :=
    (arcsin_sin (by linarith) h1.le).symm
  rw [e]
  unfold solarDelta
  exact strictMonoOn_arcsin ⟨neg_one_le_sin _, sin_le_one _⟩ ⟨hmem.1, hmem.2⟩
    (lt_trans sin_toRadians_22_lt hprod)

theorem new_york_solstice_noon :
    (solarPositionAt 40.7128 2460483 12).elevation =
        90 - 40.7128 + (solarPositionAt 40.7128 2460483 12).declination ∧
    72 < (solarPositionAt 40.7128 2460483 12).elevation ∧
    (solarPositionAt 40.7128 2460483 12).elevation < 73 ∧
    (solarPositionAt 40.7128 2460483 12).azimuth = 180 := by
  have hp := Real.pi_pos
  have hd := abs_le.1 (abs_solarDelta_le 2460483)
  have hlat : toRadians 23.439 < toRadians 40.7128 := toRadians_lt_toRadians (by norm_num)
  have hlat2 : toRadians 40.7128 < π / 2 := toRadians_lt_pi_div_two (by norm_num)
  have hdiff : 0 < toRadians 40.7128 - solarDelta 2460483 := by linarith [hd.2]
  have hdiff2 : toRadians 40.7128 - solarDelta 2460483 < π := by
    have := obliquity_pos
    linarith [hd.1]
  have halt : toDegrees (altitudeRad 40.7128 2460483 12) =
      90 - 40.7128 + toDegrees (solarDelta 2460483) := by
    rw [altitudeRad_noon (by rw [abs_of_pos hdiff]; exact hdiff2.le), abs_of_pos hdiff,
      toDegrees_sub, toDegrees_sub, toDegrees_pi_div_two, toDegrees_toRadians]
    ring
  have hlo : 22.7128 < toDegrees (solarDelta 2460483) :=
    (toRadians_lt_iff _ _).1 solarDelta_solstice_gt_fine
  have hhi := (abs_le.1 (abs_declination_le 2460483)).2
  have hel : (solarPositionAt 40.7128 2460483 12).elevation =
      90 - 40.7128 + toDegrees (solarDelta 2460483) := by
    show max 0 (toDegrees (altitudeRad 40.7128 2460483 12)) = _
    rw [halt]
    exact max_eq_right (by linarith)
  refine ⟨hel, ?_, ?_, noon_azimuth_south (by linarith [hd.2]) hdiff2⟩
  · rw [hel]; linarith
  · rw [hel]; linarith

/-- Claim C20, amended: for New York City (latitude 40.7128, longitude
-74.0060) on 2024-06-21 at 12:00, `getSolarPosition` returns an elevation
between 72 and 73 degrees, namely 90 - 40.7128 + declination, and an azimuth
of exactly 180 degrees. -/
theorem new_york_solstice_noon_position (date : JsDate)
    (hd : date.fullYear = 2024 ∧ date.month = 5 ∧ date.date = 21)
    (hnoon : date.hours = 12 ∧ date.minutes = 0 ∧ date.seconds = 0) :
    (getSolarPosition 40.7128 (-74.0060) date).elevation =
        90 - 40.7128 + (getSolarPosition 40.7128 (-74.0060) date).declination ∧
    72 < (getSolarPosition 40.7128 (-74.0060) date).elevation ∧
    (getSolarPosition 40.7128 (-74.0060) date).elevation < 73 ∧
    (getSolarPosition 40.7128 (-74.0060) date).azimuth = 180 := by
  have hn : decimalHour date = 12 := by
    have := decimalHour_of_fields hnoon.1 hnoon.2.1 hnoon.2.2
    simpa using this
  unfold getSolarPosition
  rw [hn, getJulianDay_solstice hd]
  exact new_york_solstice_noon

/-- Claim C20, counterexample: at noon of 2024-06-21 the elevation returned
for New York City is not between 60 and 70 degrees. -/
theorem new_york_elevation_not_in_60_70 :
    ¬ (60 ≤ (getSolarPosition 40.7128 (-74.0060) solsticeNoon).elevation ∧
      (getSolarPosition 40.7128 (-74.0060) solsticeNoon).elevation ≤ 70) := by
  have hjd : getJulianDay solsticeNoon = 2460483 := by decide
  have hn : decimalHour solsticeNoon = 12 := by simp [decimalHour, solsticeNoon]
  unfold getSolarPosition
  rw [hjd, hn]
  intro h
  linarith [new_york_solstice_noon.2.1, h.2]

/-- Claim C20, witness of the amended statement: noon of 2024-06-21. -/
theorem new_york_solstice_noon_position_witness :
    72 < (getSolarPosition 40.7128 (-74.0060) solsticeNoon).elevation ∧
    (getSolarPosition 40.7128 (-74.0060) solsticeNoon).elevation < 73 ∧
    (getSolarPosition 40.7128 (-74.0060) solsticeNoon).azimuth = 180 :=
  (new_york_solstice_noon_position solsticeNoon ⟨rfl, rfl, rfl⟩ ⟨rfl, rfl, rfl⟩).2

/-! ### Timestamps of the sun path -/

theorem plusMs_getTime (base : JsDate) (ms : Int) :
    (base.plusMs ms).getTime = base.midnight + ms := by
  unfold JsDate.plusMs JsDate.getTime
  simp only
  omega

theorem setHoursZero_getTime (date : JsDate) : date.setHoursZero.getTime = date.midnight := by
  unfold JsDate.setHoursZero JsDate.getTime
  simp

theorem sunPathSampleAt_timestamp {lat lng : ℝ} {baseDate : JsDate} {k : Nat}
    {s : SunPathSample} (h : sunPathSampleAt lat lng baseDate k = some s) :
    s.timestamp = baseDate.midnight + (k : Int) * 900000 := by
  unfold sunPathSampleAt at h
  split_ifs at h
  cases h
  exact plusMs_getTime _ _

theorem getSunPath_timestamps (lat lng : ℝ) (date : JsDate) :
    ((getSunPath lat lng date).map fun s => s.timestamp).Pairwise (· < ·) ∧
    ∀ t ∈ (getSunPath lat lng date).map fun s => s.timestamp,
      ∃ k : Nat, k < 96 ∧ t = date.midnight + (k : Int) * 900000 := by
  rw [getSunPath_eq]
  constructor
  · rw [List.pairwise_map]
    refine List.Pairwise.filterMap _ ?_ (List.pairwise_lt_range 96)
    intro a a' haa b hb b' hb'
    rw [sunPathSampleAt_timestamp (Option.mem_def.1 hb),
      sunPathSampleAt_timestamp (Option.mem_def.1 hb')]
    show date.midnight + (a : Int) * 900000 < date.midnight + (a' : Int) * 900000
    omega
  · intro t ht
    obtain ⟨s, hs, rfl⟩ := List.mem_map.1 ht
    obtain ⟨k, hk, hks⟩ := List.mem_filterMap.1 hs
    exact ⟨k, List.mem_range.1 hk, sunPathSampleAt_timestamp hks⟩

theorem sunCalculator_loop_times (host : SunCalculator.Host) (lat lng : ℝ) (baseDate : JsDate) :
    ∀ (n minutes : Nat) (cache : SunCalculator.Cache), 24 * 60 - minutes ≤ n →
      ((SunCalculator.getSunPathLoop host lat lng baseDate minutes cache).1.map
          fun e => e.time.getTime).Pairwise (· < ·) ∧
      ∀ t ∈ (SunCalculator.getSunPathLoop host lat lng baseDate minutes cache).1.map
          fun e => e.time.getTime,
        ∃ j : Nat, minutes + 10 * j < 24 * 60 ∧
          t = baseDate.midnight + ((minutes + 10 * j : Nat) : Int) * 60000 := by
  intro n
  induction n with
  | zero =>
    intro minutes cache hn
    have hge : ¬ minutes < 24 * 60 := by omega
    rw [SunCalculator.getSunPathLoop, if_neg hge]
    simp
  | succ n ih =>
    intro minutes cache hn
    by_cases hlt : minutes < 24 * 60
    · rw [SunCalculator.getSunPathLoop, if_pos hlt]
      simp only
      obtain ⟨ihp, ihm⟩ := ih (minutes + 10) (SunCalculator.getSunPosition host cache lat lng
        (baseDate.plusMs ((minutes : Int) * 60000))).2 (by omega)
      have hshift : ∀ t ∈ (SunCalculator.getSunPathLoop host lat lng baseDate (minutes + 10)
          (SunCalculator.getSunPosition host cache lat lng
            (baseDate.plusMs ((minutes : Int) * 60000))).2).1.map fun e => e.time.getTime,
          ∃ j : Nat, minutes + 10 * j < 24 * 60 ∧
            t = baseDate.midnight + ((minutes + 10 * j : Nat) : Int) * 60000 := by
        intro t ht
        obtain ⟨j, hj, rfl⟩ := ihm t ht
        exact ⟨j + 1, by omega, by push_cast; ring⟩
      split_ifs with he
      · constructor
        · rw [List.map_cons, List.pairwise_cons]
          refine ⟨?_, ihp⟩
          intro t ht
          obtain ⟨j, hj, rfl⟩ := ihm t ht
          show (baseDate.plusMs ((minutes : Int) * 60000)).getTime < _
          rw [plusMs_getTime]
          push_cast
          omega
        · intro t ht
          rw [List.map_cons, List.mem_cons] at ht
          rcases ht with rfl | ht
          · exact ⟨0, by omega, by
              show (baseDate.plusMs ((minutes : Int) * 60000)).getTime = _
              rw [plusMs_getTime]; push_cast; ring⟩
          · exact hshift t ht
      · exact ⟨ihp, hshift⟩
    · rw [SunCalculator.getSunPathLoop, if_neg hlt]
      simp

/-- Claim C11: for every latitude, longitude and date, the timestamps of the
samples of `sunCalculations.getSunPath` (step 15 minutes) and of the entries
of `sunCalculator.getSunPath` (step 10 minutes, for every library and every
cache) are strictly ascending, lie in the half-open interval from the local
midnight of the date to 24 hours later, and are the local midnight plus a
whole multiple of the step. -/
theorem sun_path_timestamps_ascending (lat lng : ℝ) (date : JsDate)
    (host : SunCalculator.Host) (cache : SunCalculator.Cache) :
    (((getSunPath lat lng date).map fun s => s.timestamp).Pairwise (· < ·) ∧
      ∀ t ∈ (getSunPath lat lng date).map fun s => s.timestamp,
        date.setHoursZero.getTime ≤ t ∧ t < date.setHoursZero.getTime + 24 * 3600000 ∧
        ∃ k : Nat, t = date.setHoursZero.getTime + (k : Int) * (15 * 60000)) ∧
    (((SunCalculator.getSunPath host cache lat lng date).1.map
        fun e => e.time.getTime).Pairwise (· < ·) ∧
      ∀ t ∈ (SunCalculator.getSunPath host cache lat lng date).1.map fun e => e.time.getTime,
        date.setHoursZero.getTime ≤ t ∧ t < date.setHoursZero.getTime + 24 * 3600000 ∧
        ∃ k : Nat, t = date.setHoursZero.getTime + (k : Int) * (10 * 60000)) := by
  rw [setHoursZero_getTime]
  obtain ⟨h1, h2⟩ := getSunPath_timestamps lat lng date
  obtain ⟨h3, h4⟩ := sunCalculator_loop_times host lat lng date.setHoursZero (24 * 60) 0 cache
    (by omega)
  refine ⟨⟨h1, ?_⟩, ⟨h3, ?_⟩⟩
  · intro t ht
    obtain ⟨k, hk, rfl⟩ := h2 t ht
    exact ⟨by omega, by omega, k, by ring⟩
  · intro t ht
    obtain ⟨j, hj, rfl⟩ := h4 t ht
    have hm : date.setHoursZero.midnight = date.midnight := rfl
    rw [hm]
    refine ⟨by omega, by omega, j, ?_⟩
    push_cast
    ring

/-! ### The cache of `SunCalculator` -/

namespace SunCalculator

theorem getSunPosition_hit {host : Host} {cache : Cache} {lat lng : ℝ} {date : JsDate}
    {cached : SunPosition} (h : cache (cacheKey host lat lng date) = some cached) :
    getSunPosition host cache lat lng date = (cached, cache) := by
  unfold getSunPosition
  rw [h]

theorem getSunPosition_miss {host : Host} {cache : Cache} {lat lng : ℝ} {date : JsDate}
    (h : cache (cacheKey host lat lng date) = none) :
    getSunPosition host cache lat lng date =
      (computeResult host lat lng date,
        Function.update cache (cacheKey host lat lng date)
          (some (computeResult host lat lng date))) := by
  unfold getSunPosition
  rw [h]

theorem radiansToDegrees_two_pi : radiansToDegrees (π + π) = 360 := by
  unfold radiansToDegrees
  field_simp
  ring

/-- Claim C17, amended: `getSunPosition` memoises.  A call whose key is in the
cache returns the cached value and leaves the cache as it was; a call whose
key is not in the cache stores its result under that key, changes no other
entry, and so leaves a cache different from the one before. -/
theorem getSunPosition_cache_effect (host : Host) (cache : Cache) (lat lng : ℝ)
    (date : JsDate) :
    (∀ cached, cache (cacheKey host lat lng date) = some cached →
      getSunPosition host cache lat lng date = (cached, cache)) ∧
    (cache (cacheKey host lat lng date) = none →
      (getSunPosition host cache lat lng date).1 = computeResult host lat lng date ∧
      (getSunPosition host cache lat lng date).2 (cacheKey host lat lng date) =
        some (computeResult host lat lng date) ∧
      (∀ key, key ≠ cacheKey host lat lng date →
        (getSunPosition host cache lat lng date).2 key = cache key) ∧
      (getSunPosition host cache lat lng date).2 ≠ cache) := by
  refine ⟨fun cached h => getSunPosition_hit h, fun h => ?_⟩
  rw [getSunPosition_miss h]
  refine ⟨rfl, Function.update_same _ _ _, fun key hk => Function.update_noteq hk _ _, ?_⟩
  intro heq
  have := congrFun heq (cacheKey host lat lng date)
  dsimp only at this
  rw [Function.update_same, h] at this
  cases this

/-- Claim C17, counterexample: a first call on the empty cache leaves a cache
that is not the empty cache. -/
theorem getSunPosition_changes_empty_cache :
    (getSunPosition northHost emptyCache 0 0 epochDate).2 ≠ emptyCache := by
  intro heq
  have h := congrFun heq (cacheKey northHost 0 0 epochDate)
  rw [getSunPosition_miss rfl] at h
  dsimp only at h
  rw [Function.update_same] at h
  cases h

/-- Claim C17, witness of the amended statement: the first call on the empty
cache stores its result. -/
theorem getSunPosition_cache_effect_witness :
    (getSunPosition northHost emptyCache 0 0 epochDate).2
        (cacheKey northHost 0 0 epochDate) =
      some (computeResult northHost 0 0 epochDate) :=
  ((getSunPosition_cache_effect northHost emptyCache 0 0 epochDate).2 rfl).2.1

/-- Claim C19, the code at the failing input: when the library reports the
azimuth `π` (which lies in `[-π, π]`), `getSunPosition` returns the azimuth
360. -/
theorem getSunPosition_returns_360 :
    -π ≤ (northHost.getPosition epochDate 0 0).azimuth ∧
    (northHost.getPosition epochDate 0 0).azimuth ≤ π ∧
    (getSunPosition northHost emptyCache 0 0 epochDate).1.azimuth = 360 := by
  refine ⟨?_, le_refl _, ?_⟩
  · show -π ≤ π
    linarith [Real.pi_pos]
  · rw [getSunPosition_miss rfl]
    exact radiansToDegrees_two_pi

/-! ### The cache key -/

theorem append_underscore_inj : ∀ {a a' r r' : List Char}, '_' ∉ a → '_' ∉ a' →
    a ++ '_' :: r = a' ++ '_' :: r' → a = a' ∧ r = r'
  | [], [], _, _, _, _, h => by
    simp only [List.nil_append, List.cons.injEq, true_and] at h
    exact ⟨rfl, h⟩
  | [], c :: t, _, _, _, ha', h => by
    simp only [List.nil_append, List.cons_append, List.cons.injEq] at h
    exact absurd (List.mem_cons.2 (Or.inl h.1)) ha'
  | c :: t, [], _, _, ha, _, h => by
    simp only [List.nil_append, List.cons_append, List.cons.injEq] at h
    exact absurd (List.mem_cons.2 (Or.inl h.1.symm)) ha
  | c :: t, c' :: t', r, r', ha, ha', h => by
    simp only [List.cons_append, List.cons.injEq] at h
    have ih := @append_underscore_inj t t' r r'
      (fun hm => ha (List.mem_cons_of_mem _ hm)) (fun hm => ha' (List.mem_cons_of_mem _ hm)) h.2
    exact ⟨by rw [h.1, ih.1], ih.2⟩

theorem cacheKey_data (host : Host) (lat lng : ℝ) (date : JsDate) :
    (cacheKey host lat lng date).data =
      (host.numberToString lat).data ++
        '_' :: ((host.numberToString lng).data ++
          '_' :: (host.numberToString (date.getTime : ℝ)).data) := by
  unfold cacheKey
  simp [String.data_append]

theorem cacheKey_inj {host : Host} {D : Set ℝ} (hinj : Set.InjOn host.numberToString D)
    (hund : ∀ x ∈ D, '_' ∉ (host.numberToString x).data)
    {lat lng lat' lng' : ℝ} {date date' : JsDate}
    (h1 : lat ∈ D ∧ lng ∈ D ∧ ((date.getTime : Int) : ℝ) ∈ D)
    (h2 : lat' ∈ D ∧ lng' ∈ D ∧ ((date'.getTime : Int) : ℝ) ∈ D)
    (h : cacheKey host lat lng date = cacheKey host lat' lng' date') :
    lat = lat' ∧ lng = lng' ∧ date.getTime = date'.getTime := by
  have hd := congrArg String.data h
  rw [cacheKey_data, cacheKey_data] at hd
  obtain ⟨e1, hrest⟩ := append_underscore_inj (hund _ h1.1) (hund _ h2.1) hd
  obtain ⟨e2, e3⟩ := append_underscore_inj (hund _ h1.2.1) (hund _ h2.2.1) hrest
  refine ⟨hinj h1.1 h2.1 (String.ext e1), hinj h1.2.1 h2.2.1 (String.ext e2), ?_⟩
  have := hinj h1.2.2 h2.2.2 (String.ext e3)
  exact_mod_cast this

/-! ### The memoised computation against the uncached one -/

theorem runCalls_spec (host : Host) (A : Call → Prop)
    (hA : ∀ c c', A c → A c' →
      cacheKey host c.lat c.lng c.date = cacheKey host c'.lat c'.lng c'.date →
      computeResult host c.lat c.lng c.date = computeResult host c'.lat c'.lng c'.date) :
    ∀ (calls : List Call) (cache : Cache),
      (∀ c ∈ calls, A c) →
      (∀ c, A c → ∀ r, cache (cacheKey host c.lat c.lng c.date) = some r →
        r = computeResult host c.lat c.lng c.date) →
      (runCalls host cache calls).1 =
          calls.map (fun c => computeResult host c.lat c.lng c.date) ∧
      (∀ c, A c → ∀ r,
        (runCalls host cache calls).2 (cacheKey host c.lat c.lng c.date) = some r →
        r = computeResult host c.lat c.lng c.date) := by
  intro calls
  induction calls with
  | nil =>
    intro cache _ hinv
    exact ⟨rfl, hinv⟩
  | cons c cs ih =>
    intro cache hmem hinv
    have hc : A c := hmem c (List.mem_cons_self _ _)
    have hcs : ∀ c' ∈ cs, A c' := fun c' h' => hmem c' (List.mem_cons_of_mem _ h')
    have hstep : (getSunPosition host cache c.lat c.lng c.date).1 =
          computeResult host c.lat c.lng c.date ∧
        ∀ c', A c' → ∀ r,
          (getSunPosition host cache c.lat c.lng c.date).2
            (cacheKey host c'.lat c'.lng c'.date) = some r →
          r = computeResult host c'.lat c'.lng c'.date := by
      cases hk : cache (cacheKey host c.lat c.lng c.date) with
      | some cached =>
        rw [getSunPosition_hit hk]
        exact ⟨hinv c hc cached hk, hinv⟩
      | none =>
        rw [getSunPosition_miss hk]
        refine ⟨rfl, ?_⟩
        intro c' hc' r hr
        dsimp only at hr
        by_cases hkey : cacheKey host c'.lat c'.lng c'.date = cacheKey host c.lat c.lng c.date
        · rw [hkey, Function.update_same] at hr
          cases hr
          exact (hA c' c hc' hc hkey).symm
        · rw [Function.update_noteq hkey] at hr
          exact hinv c' hc' r hr
    obtain ⟨ih1, ih2⟩ := ih (getSunPosition host cache c.lat c.lng c.date).2 hcs hstep.2
    constructor
    · show (getSunPosition host cache c.lat c.lng c.date).1 ::
        (runCalls host (getSunPosition host cache c.lat c.lng c.date).2 cs).1 = _
      rw [hstep.1, ih1, List.map_cons]
    · exact ih2

/-- Claim C18: the memoising `getSunPosition` is observationally equal to the
uncached computation.  Number formatting is taken to be one-to-one and free of
underscores on the numbers that occur (the set `D`), and a `Date` to be
determined by its epoch time.  Then, starting from the empty cache, every call
of a sequence returns the value the uncached formula gives for its own
arguments; every cache entry under the key of a call holds the result for that
call; and two calls with the same key have the same latitude, longitude and
time. -/
theorem memoised_equals_uncached (host : Host) (D : Set ℝ)
    (hinj : Set.InjOn host.numberToString D)
    (hund : ∀ x ∈ D, '_' ∉ (host.numberToString x).data)
    (calls : List Call)
    (hD : ∀ c ∈ calls, c.lat ∈ D ∧ c.lng ∈ D ∧ ((c.date.getTime : Int) : ℝ) ∈ D)
    (hdate : ∀ c ∈ calls, ∀ c' ∈ calls, c.date.getTime = c'.date.getTime → c.date = c'.date) :
    (runCalls host emptyCache calls).1 =
        calls.map (fun c => computeResult host c.lat c.lng c.date) ∧
    (∀ c ∈ calls, ∀ r,
      (runCalls host emptyCache calls).2 (cacheKey host c.lat c.lng c.date) = some r →
      r = computeResult host c.lat c.lng c.date) ∧
    (∀ c ∈ calls, ∀ c' ∈ calls,
      cacheKey host c.lat c.lng c.date = cacheKey host c'.lat c'.lng c'.date →
      c.lat = c'.lat ∧ c.lng = c'.lng ∧ c.date.getTime = c'.date.getTime) := by
  have hkey : ∀ c ∈ calls, ∀ c' ∈ calls,
      cacheKey host c.lat c.lng c.date = cacheKey host c'.lat c'.lng c'.date →
      c.lat = c'.lat ∧ c.lng = c'.lng ∧ c.date.getTime = c'.date.getTime :=
    fun c hc c' hc' h => cacheKey_inj hinj hund (hD c hc) (hD c' hc') h
  have hA : ∀ c c', c ∈ calls → c' ∈ calls →
      cacheKey host c.lat c.lng c.date = cacheKey host c'.lat c'.lng c'.date →
      computeResult host c.lat c.lng c.date = computeResult host c'.lat c'.lng c'.date := by
    intro c c' hc hc' h
    obtain ⟨e1, e2, e3⟩ := hkey c hc c' hc' h
    rw [e1, e2, hdate c hc c' hc' e3]
  obtain ⟨r1, r2⟩ := runCalls_spec host (fun c => c ∈ calls) hA calls emptyCache
    (fun c hc => hc) (fun c _ r hr => by cases hr)
  exact ⟨r1, r2, hkey⟩

/-- Claim C18, witness: three calls on the empty cache, the third with the
arguments of the first; numbers are printed as `0` and `1`. -/
theorem memoised_equals_uncached_witness :
    (runCalls northHost emptyCache
        [⟨0, 0, epochDate⟩, ⟨1, 0, epochDate⟩, ⟨0, 0, epochDate⟩]).1 =
      [computeResult northHost 0 0 epochDate, computeResult northHost 1 0 epochDate,
        computeResult northHost 0 0 epochDate] :=
  (memoised_equals_uncached northHost {0, 1}
    (by
      intro x hx y hy hxy
      simp only [northHost] at hxy
      rcases hx with rfl | rfl <;> rcases hy with rfl | rfl <;> simp at hxy ⊢)
    (by
      intro x hx
      simp only [northHost]
      rcases hx with rfl | rfl <;> simp)
    [⟨0, 0, epochDate⟩, ⟨1, 0, epochDate⟩, ⟨0, 0, epochDate⟩]
    (by
      intro c hc
      have ht : ((epochDate.getTime : Int) : ℝ) = 0 := by
        simp [JsDate.getTime, epochDate]
      simp only [List.mem_cons, List.mem_singleton, List.not_mem_nil, or_false] at hc
      rcases hc with rfl | rfl | rfl <;> simp [ht])
    (by
      intro c hc c' hc' _
      simp only [List.mem_cons, List.mem_singleton, List.not_mem_nil, or_false] at hc hc'
      rcases hc with rfl | rfl | rfl <;> rcases hc' with rfl | rfl | rfl <;> rfl)).1

end SunCalculator

/-! ### Golden and blue hours -/

/-- Claim C22: when `getSunTimes` returns a sunrise and a sunset (decimal
hours `r` and `s`), `goldenHourMorning` is `formatTime(r + 0.5)`,
`goldenHourEvening` is `formatTime(s - 0.5)`, `blueHourMorning` is
`formatTime(r - 0.5)` and `blueHourEvening` is `formatTime(s + 0.5)`: fixed
offsets of half an hour, whatever the latitude and the date. -/
theorem golden_blue_hours_are_half_hour_offsets (lat lng : ℝ) (date : JsDate)
    (h : (getSunTimes lat lng date).sunrise.isSome ∧
      (getSunTimes lat lng date).sunset.isSome) :
    (getSunTimes lat lng date).goldenHourMorning =
        formatTime (some (sunriseHours lat (getJulianDay date) + 0.5)) ∧
    (getSunTimes lat lng date).goldenHourEvening =
        formatTime (some (sunsetHours lat (getJulianDay date) - 0.5)) ∧
    (getSunTimes lat lng date).blueHourMorning =
        formatTime (some (sunriseHours lat (getJulianDay date) - 0.5)) ∧
    (getSunTimes lat lng date).blueHourEvening =
        formatTime (some (sunsetHours lat (getJulianDay date) + 0.5)) := by
  have hc := (sunrise_isSome_iff lat lng date).1 h.1
  rw [getSunTimes_of_crossing lng hc]
  exact ⟨rfl, rfl, rfl, rfl⟩

/-- Claim C22, witness: the equator on 2024-03-20. -/
theorem golden_blue_hours_are_half_hour_offsets_witness :
    (getSunTimes 0 0 equinoxNoon).goldenHourMorning =
      formatTime (some (sunriseHours 0 (getJulianDay equinoxNoon) + 0.5)) :=
  (golden_blue_hours_are_half_hour_offsets 0 0 equinoxNoon
    (by
      have h : ¬ |cosH 0 (getJulianDay equinoxNoon)| > 1 := by
        rw [cosH_equator]; norm_num
      rw [getSunTimes_of_crossing 0 h]
      exact ⟨rfl, rfl⟩)).1

/-! ### Shadows -/

namespace SunCalculator

theorem calculateShadowDirection_spec {a : ℝ} (h0 : 0 ≤ a) (h1 : a < 360) :
    0 ≤ calculateShadowDirection a ∧ calculateShadowDirection a < 360 ∧
    (180 ≤ a → |calculateShadowDirection a - (a - 180)| ≤ (2 : ℝ) ^ (-44 : Int)) ∧
    (a < 180 →
      (|calculateShadowDirection a - (a + 180)| ≤ (2 : ℝ) ^ (-44 : Int) ∧
        180 ≤ calculateShadowDirection a) ∨
      (calculateShadowDirection a = 0 ∧ 180 - (2 : ℝ) ^ (-44 : Int) ≤ a)) := by
  have hx : |a + 180| < (2 : ℝ) ^ ((9 : Int) + 1) := by
    rw [abs_of_nonneg (by linarith)]; norm_num; linarith
  have he := roundDouble_error hx
  rw [show (9 : Int) - 53 = -44 by norm_num] at he
  have hx53 : |a + 180| < (2 : ℝ) ^ (53 : Int) := by
    rw [abs_of_nonneg (by linarith)]; norm_num; linarith
  have hlo : (180 : ℝ) ≤ roundDouble (a + 180) := by
    have := @roundDouble_ge_of_int (a + 180) 180 hx53 (by push_cast; linarith)
    exact_mod_cast this
  have hhi : roundDouble (a + 180) ≤ 540 := by
    have := @roundDouble_le_of_int (a + 180) 540 hx53 (by push_cast; linarith)
    exact_mod_cast this
  obtain ⟨e1, e2⟩ := abs_le.1 he
  unfold calculateShadowDirection
  by_cases hs : roundDouble (a + 180) < 360
  · rw [jsMod_of_nonneg_lt (by linarith) hs]
    refine ⟨by linarith, hs, ?_, ?_⟩
    · intro ha
      have := @roundDouble_ge_of_int (a + 180) 360 hx53 (by push_cast; linarith)
      push_cast at this
      linarith
    · intro _
      exact Or.inl ⟨he, hlo⟩
  · have hs' := not_lt.1 hs
    have e := @jsMod_eq_sub (roundDouble (a + 180)) 360 1 (by norm_num)
      (by push_cast; linarith) (by push_cast; linarith)
    rw [e]
    push_cast
    refine ⟨by linarith, by linarith, ?_, ?_⟩
    · intro _
      rw [abs_le]
      constructor <;> linarith
    · intro ha
      have := @roundDouble_le_of_int (a + 180) 360 hx53 (by push_cast; linarith)
      push_cast at this
      exact Or.inr ⟨by linarith, by linarith⟩

/-- Claim C23, counterexample: at the double 0.1 (the number
`3602879701896397 / 2 ^ 55`) the sum `0.1 + 180` is rounded, so the result
`180.1` (the number `6336705413198643 / 2 ^ 45`) does not differ from the
azimuth by exactly 180, and applying `calculateShadowDirection` twice returns
`0.10000000000002274` (the number `879609302221 / 2 ^ 43`), not the azimuth.
At the double `179.99999999999997` below 180 the result is 0, not the azimuth
plus 180. -/
theorem shadow_direction_twice_not_identity :
    roundDouble (0.1 : ℝ) = 3602879701896397 / 2 ^ 55 ∧
    calculateShadowDirection (3602879701896397 / 2 ^ 55) = 6336705413198643 / 2 ^ 45 ∧
    calculateShadowDirection (3602879701896397 / 2 ^ 55) ≠ 3602879701896397 / 2 ^ 55 + 180 ∧
    calculateShadowDirection (calculateShadowDirection (3602879701896397 / 2 ^ 55)) =
      879609302221 / 2 ^ 43 ∧
    calculateShadowDirection (calculateShadowDirection (3602879701896397 / 2 ^ 55)) ≠
      3602879701896397 / 2 ^ 55 ∧
    roundDouble (6333186975989759 / 2 ^ 45 : ℝ) = 6333186975989759 / 2 ^ 45 ∧
    (6333186975989759 / 2 ^ 45 : ℝ) < 180 ∧
    calculateShadowDirection (6333186975989759 / 2 ^ 45) = 0 := by
  have t : roundDouble (0.1 : ℝ) = 3602879701896397 / 2 ^ 55 := by
    rw [roundDouble_eq (e := -4) (by rw [abs_of_pos (by norm_num)]; norm_num)
      (by rw [abs_of_pos (by norm_num)]; norm_num)]
    rw [roundHalfEven_of_lt (n := 7205759403792794) (by norm_num) (by norm_num)]
    norm_num
  have s1 : roundDouble ((3602879701896397 / 2 ^ 55 : ℝ) + 180) = 6336705413198643 / 2 ^ 45 := by
    rw [roundDouble_eq (e := 7) (by rw [abs_of_pos (by norm_num)]; norm_num)
      (by rw [abs_of_pos (by norm_num)]; norm_num)]
    rw [roundHalfEven_of_lt (n := 6336705413198643) (by norm_num) (by norm_num)]
    norm_num
  have c1 : calculateShadowDirection (3602879701896397 / 2 ^ 55) =
      6336705413198643 / 2 ^ 45 := by
    unfold calculateShadowDirection
    rw [s1]
    exact jsMod_of_nonneg_lt (by norm_num) (by norm_num)
  have s2 : roundDouble ((6336705413198643 / 2 ^ 45 : ℝ) + 180) = 3167473097297101 / 2 ^ 43 := by
    rw [roundDouble_eq (e := 8) (by rw [abs_of_pos (by norm_num)]; norm_num)
      (by rw [abs_of_pos (by norm_num)]; norm_num)]
    rw [roundHalfEven_tie_odd (n := 6334946194594201) (by norm_num) (by decide)]
    norm_num
  have c2 : calculateShadowDirection (6336705413198643 / 2 ^ 45) = 879609302221 / 2 ^ 43 := by
    unfold calculateShadowDirection
    rw [s2, @jsMod_eq_sub (3167473097297101 / 2 ^ 43) 360 1 (by norm_num) (by norm_num)
      (by norm_num)]
    norm_num
  have d : roundDouble (6333186975989759 / 2 ^ 45 : ℝ) = 6333186975989759 / 2 ^ 45 :=
    roundDouble_exact 6333186975989759 (-45) (by rw [abs_of_pos (by norm_num)]; norm_num)
      (by norm_num)
  have s3 : roundDouble ((6333186975989759 / 2 ^ 45 : ℝ) + 180) = 360 := by
    rw [roundDouble_eq (e := 8) (by rw [abs_of_pos (by norm_num)]; norm_num)
      (by rw [abs_of_pos (by norm_num)]; norm_num)]
    rw [roundHalfEven_tie_odd (n := 6333186975989759) (by norm_num) (by decide)]
    norm_num
  have c3 : calculateShadowDirection (6333186975989759 / 2 ^ 45) = 0 := by
    unfold calculateShadowDirection
    rw [s3]
    exact jsMod_self (by norm_num)
  refine ⟨t, c1, ?_, ?_, ?_, d, by norm_num, c3⟩
  · rw [c1]; norm_num
  · rw [c1, c2]
  · rw [c1, c2]; norm_num

/-- Claim C23, amended: for a sun azimuth `a` in [0, 360),
`calculateShadowDirection` returns a bearing in [0, 360) that is within
`2 ^ -44` degrees (the rounding of the sum `a + 180`) of `a - 180` when
`180 ≤ a`, and of `a + 180` when `a < 180`, unless the sum rounds up to 360
and the result is 0; applying it twice returns a bearing within `2 ^ -43`
degrees of `a` modulo 360. -/
theorem shadow_direction_is_opposite_rounded (a : ℝ) (h0 : 0 ≤ a) (h1 : a < 360) :
    0 ≤ calculateShadowDirection a ∧ calculateShadowDirection a < 360 ∧
    (180 ≤ a → |calculateShadowDirection a - (a - 180)| ≤ (2 : ℝ) ^ (-44 : Int)) ∧
    (a < 180 → |calculateShadowDirection a - (a + 180)| ≤ (2 : ℝ) ^ (-44 : Int) ∨
      (calculateShadowDirection a = 0 ∧ 180 - (2 : ℝ) ^ (-44 : Int) ≤ a)) ∧
    (|calculateShadowDirection (calculateShadowDirection a) - a| ≤ (2 : ℝ) ^ (-43 : Int) ∨
      |calculateShadowDirection (calculateShadowDirection a) - (a - 360)| ≤
        (2 : ℝ) ^ (-43 : Int)) := by
  obtain ⟨r0, r1, rge, rlt⟩ := calculateShadowDirection_spec h0 h1
  obtain ⟨_, _, sge, slt⟩ := calculateShadowDirection_spec r0 r1
  obtain ⟨_, _, _, zlt⟩ := @calculateShadowDirection_spec 0 (le_refl _) (by norm_num)
  have hE : (2 : ℝ) ^ (-43 : Int) = 2 * (2 : ℝ) ^ (-44 : Int) := by norm_num
  have hE0 : (0 : ℝ) < (2 : ℝ) ^ (-44 : Int) := two_zpow_pos _
  have hE1 : (2 : ℝ) ^ (-44 : Int) < 1 := by norm_num
  refine ⟨r0, r1, rge, ?_, ?_⟩
  · intro ha
    rcases rlt ha with h | h
    · exact Or.inl h.1
    · exact Or.inr h
  rw [hE]
  generalize (2 : ℝ) ^ (-44 : Int) = E at *
  by_cases ha : 180 ≤ a
  · obtain ⟨a1, a2⟩ := abs_le.1 (rge ha)
    by_cases hr : 180 ≤ calculateShadowDirection a
    · obtain ⟨b1, b2⟩ := abs_le.1 (sge hr)
      right; rw [abs_le]; constructor <;> linarith
    · rcases slt (not_le.1 hr) with h | h
      · obtain ⟨b1, b2⟩ := abs_le.1 h.1
        left; rw [abs_le]; constructor <;> linarith
      · right; rw [h.1, abs_le]; constructor <;> linarith [h.2]
  · rcases rlt (not_le.1 ha) with h | h
    · obtain ⟨a1, a2⟩ := abs_le.1 h.1
      obtain ⟨b1, b2⟩ := abs_le.1 (sge h.2)
      left; rw [abs_le]; constructor <;> linarith
    · rw [h.1]
      rcases zlt (by norm_num) with z | z
      · obtain ⟨b1, b2⟩ := abs_le.1 z.1
        left; rw [abs_le]; constructor <;> linarith [h.2, not_le.1 ha]
      · linarith [z.2]

/-- Claim C23, witness of the amended statement: the azimuths 90 and 270. -/
theorem shadow_direction_is_opposite_rounded_witness :
    0 ≤ calculateShadowDirection 90 ∧ calculateShadowDirection 90 < 360 ∧
    |calculateShadowDirection 270 - (270 - 180)| ≤ (2 : ℝ) ^ (-44 : Int) :=
  ⟨(shadow_direction_is_opposite_rounded 90 (by norm_num) (by norm_num)).1,
    (shadow_direction_is_opposite_rounded 90 (by norm_num) (by norm_num)).2.1,
    (shadow_direction_is_opposite_rounded 270 (by norm_num) (by norm_num)).2.2.1 (by norm_num)⟩

end SunCalculator

/-! ### The UV index -/

namespace WeatherService

/-- Claim C25, the code at the failing input: at latitude 0 and cloud cover 0
on 2024-03-20, `calculateUVIndex` returns 0 for 12:00 and 10 for 15:00, so the
value at hour 12 is not the greatest of the day. -/
theorem uv_index_at_noon_below_afternoon :
    calculateUVIndex 0 equinoxNoon 0 = 0 ∧
    calculateUVIndex 0 { equinoxNoon with hours := 15 } 0 = 10 ∧
    ¬ (calculateUVIndex 0 { equinoxNoon with hours := 15 } 0 ≤
      calculateUVIndex 0 equinoxNoon 0) := by
  have h12 : calculateUVIndex 0 equinoxNoon 0 = 0 := by
    unfold calculateUVIndex mathRound
    simp only [equinoxNoon]
    norm_num
  have h15 : calculateUVIndex 0 { equinoxNoon with hours := 15 } 0 = 10 := by
    unfold calculateUVIndex mathRound
    simp only [equinoxNoon]
    have e : (((15 : Int) : ℝ) - 12) * π / 6 = π / 2 := by push_cast; ring
    rw [if_neg (by decide), e, sin_pi_div_two]
    norm_num
  refine ⟨h12, h15, ?_⟩
  rw [h12, h15]
  decide

end WeatherService

/-! ### Recent plans -/

namespace UserPreferences

/-- Claim C26: after `addRecentPlan` the list of recent plans has at most 10
entries; its first entry is the added plan, carrying the id of the plan or a
generated one when the plan has none; no other entry has that id; and the
other entries are the first 9 entries of the prior list without that id, in
their prior order. -/
theorem addRecentPlan_keeps_ten {α β : Type} (clock : Clock) (plan : Plan α)
    (prev : Preferences α β) :
    (addRecentPlan clock plan prev).recentPlans.length ≤ 10 ∧
    (addRecentPlan clock plan prev).recentPlans.head? = some (planWithId plan clock) ∧
    (planWithId plan clock).other = plan.other ∧
    (∀ s, plan.id = some s → s ≠ "" → (planWithId plan clock).id = some s) ∧
    (plan.id = none ∨ plan.id = some "" →
      (planWithId plan clock).id = some ("plan_" ++ toString clock.now)) ∧
    (∀ p ∈ (addRecentPlan clock plan prev).recentPlans.tail,
      p.id ≠ (planWithId plan clock).id) ∧
    (addRecentPlan clock plan prev).recentPlans.tail =
      (prev.recentPlans.filter fun p => decide (p.id ≠ (planWithId plan clock).id)).take 9 ∧
    (addRecentPlan clock plan prev).recentPlans.tail.Sublist prev.recentPlans ∧
    (addRecentPlan clock plan prev).other = prev.other := by
  refine ⟨?_, rfl, rfl, ?_, ?_, ?_, rfl, ?_, rfl⟩
  · show (List.take 9 _).length + 1 ≤ 10
    have := List.length_take_le 9
      (prev.recentPlans.filter fun p => decide (p.id ≠ (planWithId plan clock).id))
    omega
  · intro s hs hne
    simp [planWithId, idOrGenerated, hs, hne]
  · intro h
    rcases h with h | h <;> simp [planWithId, idOrGenerated, h]
  · intro p hp
    have hp' : p ∈ (prev.recentPlans.filter fun p =>
        decide (p.id ≠ (planWithId plan clock).id)).take 9 := hp
    have := List.mem_filter.1 (List.mem_of_mem_take hp')
    exact of_decide_eq_true this.2
  · exact (List.take_sublist _ _).trans (List.filter_sublist _)

end UserPreferences

/-! ### Outside the polar zones -/

theorem abs_tan_eq {x : ℝ} (h : |x| < π / 2) : |tan x| = tan |x| := by
  obtain ⟨h1, h2⟩ := abs_lt.1 h
  by_cases hx : 0 ≤ x
  · rw [abs_of_nonneg hx, abs_of_nonneg (tan_nonneg_of_nonneg_of_le_pi_div_two hx h2.le)]
  · have hx' : x < 0 := not_le.1 hx
    rw [abs_of_neg hx', abs_of_neg (tan_neg_of_neg_of_pi_div_two_lt hx' h1), tan_neg]

theorem tan_abs_le {x y : ℝ} (hxy : |x| ≤ y) (hy : y < π / 2) : tan |x| ≤ tan y := by
  have hp := Real.pi_pos
  exact strictMonoOn_tan.monotoneOn ⟨by linarith [abs_nonneg x], by linarith⟩
    ⟨by linarith [abs_nonneg x], hy⟩ hxy

theorem toRadians_abs (x : ℝ) : toRadians |x| = |toRadians x| := by
  unfold toRadians
  rw [abs_mul, abs_of_pos (by positivity : (0 : ℝ) < π / 180)]

theorem tan_toRadians_complement : tan (toRadians 66.561) = (tan (toRadians 23.439))⁻¹ := by
  rw [← tan_pi_div_two_sub]
  congr 1
  unfold toRadians; ring

theorem tan_obliquity_pos : 0 < tan (toRadians 23.439) :=
  tan_pos_of_pos_of_lt_pi_div_two obliquity_pos obliquity_lt_pi_div_two

theorem abs_cosH_le_one {lat : ℝ} (h : |lat| ≤ 66.561) (jd : Int) : |cosH lat jd| ≤ 1 := by
  have hp := Real.pi_pos
  have hφ : |toRadians lat| ≤ toRadians 66.561 := by
    rw [← toRadians_abs]
    unfold toRadians
    exact mul_le_mul_of_nonneg_right h (by positivity)
  have hφ2 : toRadians 66.561 < π / 2 := toRadians_lt_pi_div_two (by norm_num)
  have hδ := abs_solarDelta_le jd
  have t1 : |tan (toRadians lat)| ≤ tan (toRadians 66.561) := by
    rw [abs_tan_eq (lt_of_le_of_lt hφ hφ2)]
    exact tan_abs_le hφ hφ2
  have t2 : |tan (solarDelta jd)| ≤ tan (toRadians 23.439) := by
    rw [abs_tan_eq (lt_of_le_of_lt hδ obliquity_lt_pi_div_two)]
    exact tan_abs_le hδ obliquity_lt_pi_div_two
  unfold cosH
  rw [abs_mul, abs_neg]
  calc |tan (toRadians lat)| * |tan (solarDelta jd)|
      ≤ tan (toRadians 66.561) * tan (toRadians 23.439) :=
        mul_le_mul t1 t2 (abs_nonneg _) (le_trans (abs_nonneg _) t1)
    _ = 1 := by
        rw [tan_toRadians_complement]
        exact inv_mul_cancel₀ tan_obliquity_pos.ne'

/-- Claim C28: for a latitude with |latitude| ≤ 66.561 degrees and any date,
`getSunTimes` does not take the polar branch (|cosH| ≤ 1) and returns a
sunrise and a sunset that are not `null`. -/
theorem sunrise_and_sunset_outside_polar_zones (lat lng : ℝ) (date : JsDate)
    (h : |lat| ≤ 66.561) :
    |cosH lat (getJulianDay date)| ≤ 1 ∧
    (getSunTimes lat lng date).sunrise ≠ none ∧
    (getSunTimes lat lng date).sunset ≠ none ∧
    (getSunTimes lat lng date).sunrise =
      formatTime (some (sunriseHours lat (getJulianDay date))) ∧
    (getSunTimes lat lng date).sunset =
      formatTime (some (sunsetHours lat (getJulianDay date))) := by
  have hc := abs_cosH_le_one h (getJulianDay date)
  rw [getSunTimes_of_crossing lng (not_lt.2 hc)]
  refine ⟨hc, ?_, ?_, rfl, rfl⟩
  · simp [formatTime]
  · simp [formatTime]

/-- Claim C28, witness: latitude 66.561 north on 2024-06-21. -/
theorem sunrise_and_sunset_outside_polar_zones_witness :
    |cosH 66.561 (getJulianDay solsticeNoon)| ≤ 1 ∧
    (getSunTimes 66.561 0 solsticeNoon).sunrise ≠ none :=
  have h := sunrise_and_sunset_outside_polar_zones 66.561 0 solsticeNoon
    (by rw [abs_of_pos (by norm_num)])
  ⟨h.1, h.2.1⟩

/-! ### The blue hours near the polar circle -/

theorem cos_obliquity_gt : 0.9158 < cos (toRadians 23.439) := by
  have hb := one_sub_sq_div_two_le_cos (x := toRadians 23.439)
  have hu := obliquity_lt
  have h0 := obliquity_pos
  have hsq : (toRadians 23.439) ^ 2 ≤ 0.4102 ^ 2 := pow_le_pow_left₀ h0.le hu.le 2
  have hn : (0.4102 : ℝ) ^ 2 ≤ 0.1683 := by norm_num
  linarith

theorem sin_tenth_degree_gt : 0.0017 < sin (toRadians 0.1) := by
  have hl : 0.001744 < toRadians 0.1 := by
    unfold toRadians
    have := Real.pi_gt_d2
    linarith
  have hu : toRadians 0.1 < 0.00175 := by
    unfold toRadians
    have := Real.pi_lt_d2
    linarith
  have h0 : 0 < toRadians 0.1 := by linarith
  have hb := sin_gt_sub_cube h0 (by linarith)
  have h3 : (toRadians 0.1) ^ 3 ≤ 0.00175 ^ 3 := pow_le_pow_left₀ h0.le hu.le 3
  have hn : (0.00175 : ℝ) ^ 3 ≤ 0.00001 := by norm_num
  linarith

theorem solarDelta_solstice_near_obliquity : toRadians 23.339 ≤ solarDelta 2460483 := by
  have hp := Real.pi_pos
  have e : toRadians 23.339 = toRadians 23.439 - toRadians 0.1 := by
    unfold toRadians; ring
  have hs : sin (toRadians 23.339) ≤ sin (toRadians 23.439) * sin (solarLambda 2460483) := by
    rw [e, sin_sub]
    have a1 := sin_obliquity_pos
    have a2 : sin (toRadians 23.439) < 0.4102 := lt_trans (sin_lt obliquity_pos) obliquity_lt
    have a3 := cos_obliquity_gt
    have a4 := sin_tenth_degree_gt
    have a5 := cos_le_one (toRadians 0.1)
    have a6 := sin_solarLambda_solstice
    have p1 : sin (toRadians 23.439) * cos (toRadians 0.1) ≤ sin (toRadians 23.439) * 1 :=
      mul_le_mul_of_nonneg_left a5 a1.le
    have p2 : sin (toRadians 23.439) * 0.998 ≤
        sin (toRadians 23.439) * sin (solarLambda 2460483) :=
      mul_le_mul_of_nonneg_left a6 a1.le
    have p3 : (0.9158 : ℝ) * 0.0017 < cos (toRadians 23.439) * sin (toRadians 0.1) :=
      mul_lt_mul'' a3 a4 (by norm_num) (by norm_num)
    linarith
  have h1 : 0 < toRadians 23.339 := by unfold toRadians; positivity
  have h2 : toRadians 23.339 < π / 2 := toRadians_lt_pi_div_two (by norm_num)
  have er : toRadians 23.339 = arcsin (sin (toRadians 23.339)) :=
    (arcsin_sin (by linarith) h2.le).symm
  rw [er]
  unfold solarDelta
  exact Real.monotone_arcsin hs

theorem cosH_polar_circle_solstice :
    -1 ≤ cosH 66.561 2460483 ∧ cosH 66.561 2460483 < -0.995 := by
  have hp := Real.pi_pos
  have hle := @abs_cosH_le_one 66.561 (by rw [abs_of_pos (by norm_num)]) 2460483
  refine ⟨(abs_le.1 hle).1, ?_⟩
  have hε0 := obliquity_pos
  have hε1 := obliquity_lt_pi_div_two
  have hδlo := solarDelta_solstice_near_obliquity
  have hδhi := (abs_le.1 (abs_solarDelta_le 2460483)).2
  have hδ0 : 0 ≤ solarDelta 2460483 := by
    have : 0 < toRadians 23.339 := by unfold toRadians; positivity
    linarith
  have hsε := sin_obliquity_gt
  have hcε := cos_obliquity_gt
  have hcδ : cos (toRadians 23.439) ≤ cos (solarDelta 2460483) :=
    cos_le_cos_of_nonneg_of_le_pi hδ0 (by linarith) hδhi
  have hcδpos := cos_solarDelta_pos 2460483
  have hdiff0 : 0 ≤ toRadians 23.439 - solarDelta 2460483 := by linarith
  have hdiff1 : toRadians 23.439 - solarDelta 2460483 ≤ 0.00175 := by
    have : toRadians 23.439 - toRadians 23.339 < 0.00175 := by
      unfold toRadians
      have := Real.pi_lt_d2
      linarith
    linarith
  have hsin : sin (toRadians 23.439 - solarDelta 2460483) ≤ 0.00175 :=
    le_trans (sin_le hdiff0) hdiff1
  have hid : (1 + cosH 66.561 2460483) *
      (sin (toRadians 23.439) * cos (solarDelta 2460483)) =
      sin (toRadians 23.439 - solarDelta 2460483) := by
    unfold cosH
    rw [tan_toRadians_complement, sin_sub, tan_eq_sin_div_cos, tan_eq_sin_div_cos]
    have c1 := hcδpos.ne'
    have c2 : cos (toRadians 23.439) ≠ 0 := by linarith
    have c3 : sin (toRadians 23.439) ≠ 0 := by linarith
    field_simp
    ring
  have hprod : (0.39 : ℝ) * 0.9158 < sin (toRadians 23.439) * cos (solarDelta 2460483) :=
    mul_lt_mul'' hsε (lt_of_lt_of_le hcε hcδ) (by norm_num) (by norm_num)
  by_contra hcon
  have hge : 0.005 ≤ 1 + cosH 66.561 2460483 := by linarith [not_lt.1 hcon]
  have : (0.005 : ℝ) * (0.39 * 0.9158) ≤ (1 + cosH 66.561 2460483) *
      (sin (toRadians 23.439) * cos (solarDelta 2460483)) :=
    mul_le_mul hge hprod.le (by norm_num) (by linarith)
  rw [hid] at this
  norm_num at this
  linarith

theorem cos_toRadians_172_gt : -0.995 < cos (toRadians 172.5) := by
  have e : toRadians 172.5 = π - toRadians 7.5 := by unfold toRadians; ring
  rw [e, cos_pi_sub]
  have hl : 0.13 < toRadians 7.5 := by
    unfold toRadians
    have := Real.pi_gt_d2
    linarith
  have hu : toRadians 7.5 < 0.1313 := by
    unfold toRadians
    have := Real.pi_lt_d2
    linarith
  have h0 : 0 ≤ toRadians 7.5 := by linarith
  have hb := abs_le.1 (cos_bound (x := toRadians 7.5) (by rw [abs_of_nonneg h0]; linarith))
  rw [abs_of_nonneg h0] at hb
  have h2 : (0.13 : ℝ) ^ 2 ≤ (toRadians 7.5) ^ 2 := pow_le_pow_left₀ (by norm_num) hl.le 2
  have h4 : (toRadians 7.5) ^ 4 ≤ 0.1313 ^ 4 := pow_le_pow_left₀ h0 hu.le 4
  have n2 : (0.0169 : ℝ) ≤ 0.13 ^ 2 := by norm_num
  have n4 : (0.1313 : ℝ) ^ 4 ≤ 0.0003 := by norm_num
  linarith [hb.2]

theorem hourAngle_polar_circle_solstice :
    11.5 < hourAngle 66.561 2460483 ∧ hourAngle 66.561 2460483 ≤ 12 := by
  have hp := Real.pi_pos
  obtain ⟨c1, c2⟩ := cosH_polar_circle_solstice
  refine ⟨?_, (hourAngle_range _ _).2⟩
  have h0 : 0 ≤ toRadians 172.5 := by unfold toRadians; positivity
  have h1 : toRadians 172.5 ≤ π := by unfold toRadians; nlinarith
  have hlt : cosH 66.561 2460483 < cos (toRadians 172.5) :=
    lt_trans c2 cos_toRadians_172_gt
  have := strictAntiOn_arccos ⟨c1, by linarith⟩ ⟨neg_one_le_cos _, cos_le_one _⟩ hlt
  rw [arccos_cos h0 h1] at this
  have hd := toDegrees_lt_toDegrees this
  rw [toDegrees_toRadians] at hd
  unfold hourAngle
  linarith

/-- Claim C30, the code at the failing input: at latitude 66.561 north on
2024-06-21 `getSunTimes` returns a sunrise and a sunset, and its
`blueHourMorning` is the formatted value of a negative decimal hour: the hours
printed are -1, and the string does not read back as a time of day.  Its
`blueHourEvening` prints the hours 24. -/
theorem blue_hour_morning_before_midnight :
    (getSunTimes 66.561 0 solsticeNoon).sunrise.isSome ∧
    (getSunTimes 66.561 0 solsticeNoon).sunset.isSome ∧
    (getSunTimes 66.561 0 solsticeNoon).blueHourMorning =
      formatTime (some (sunriseHours 66.561 (getJulianDay solsticeNoon) - 0.5)) ∧
    fmtHours (sunriseHours 66.561 (getJulianDay solsticeNoon) - 0.5) = -1 ∧
    (getSunTimes 66.561 0 solsticeNoon).blueHourMorning.bind readHHMM = none ∧
    (getSunTimes 66.561 0 solsticeNoon).blueHourEvening =
      formatTime (some (sunsetHours 66.561 (getJulianDay solsticeNoon) + 0.5)) ∧
    fmtHours (sunsetHours 66.561 (getJulianDay solsticeNoon) + 0.5) = 24 := by
  have hjd : getJulianDay solsticeNoon = 2460483 := by decide
  rw [hjd]
  obtain ⟨a1, a2⟩ := hourAngle_polar_circle_solstice
  have hc : ¬ |cosH 66.561 (getJulianDay solsticeNoon)| > 1 := by
    rw [hjd]
    exact not_lt.2 (abs_cosH_le_one (by rw [abs_of_pos (by norm_num)]) _)
  rw [getSunTimes_of_crossing 0 hc, hjd]
  have hH : fmtHours (sunriseHours 66.561 2460483 - 0.5) = -1 := by
    unfold fmtHours sunriseHours
    rw [Int.floor_eq_iff]
    constructor
    · push_cast; linarith
    · push_cast; linarith
  have hM := fmtMinutes_range (sunriseHours 66.561 2460483 - 0.5)
  obtain ⟨M, hMe⟩ := Int.eq_ofNat_of_zero_le hM.1
  have p2 := pad_two_digits ⟨M, by omega⟩
  simp only at p2
  refine ⟨by simp [formatTime], by simp [formatTime], rfl, hH, ?_, rfl, ?_⟩
  · show (formatTime (some (sunriseHours 66.561 2460483 - 0.5))).bind readHHMM = none
    simp only [formatTime, Option.some_bind, hH, hMe]
    unfold readHHMM
    rw [String.data_append, String.data_append, p2]
    have hpad : (padStart (toString (-1 : Int)) 2 '0').data = ['-', '1'] := by decide
    rw [hpad]
    have hd : digitValue '-' = none := by decide
    simp [hd]
  · unfold fmtHours sunsetHours
    rw [Int.floor_eq_iff]
    constructor
    · push_cast; linarith
    · push_cast; linarith

/-! ### Formatting a double -/

/-- The fractional part of a double is a double below `1 - 2 ^ -53`. -/
theorem double_fract {h : ℝ} (hd : roundDouble h = h) (h0 : 0 ≤ h) :
    roundDouble (h - (⌊h⌋ : ℝ)) = h - (⌊h⌋ : ℝ) ∧
    h - (⌊h⌋ : ℝ) ≤ 1 - (2 : ℝ) ^ (-53 : Int) := by
  have f0 : 0 ≤ h - (⌊h⌋ : ℝ) := by linarith [Int.floor_le h]
  have f1 : h - (⌊h⌋ : ℝ) < 1 := by linarith [Int.lt_floor_add_one h]
  by_cases h1 : 1 ≤ h
  · have hne : h ≠ 0 := by linarith
    obtain ⟨K, hK⟩ := @double_on_grid h 0 hd hne (by rw [abs_of_nonneg h0]; simpa using h1)
    have hg : h - (⌊h⌋ : ℝ) = ((K - ⌊h⌋ * (2 : Int) ^ 52 : Int) : ℝ) * (2 : ℝ) ^ (-52 : Int) := by
      push_cast
      rw [sub_mul, mul_assoc]
      rw [show (0 : Int) - 52 = -52 by norm_num] at hK
      rw [← hK]
      norm_num
    have g0 : (0 : ℝ) ≤ ((K - ⌊h⌋ * (2 : Int) ^ 52 : Int) : ℝ) := by
      have hp : (0 : ℝ) < (2 : ℝ) ^ (-52 : Int) := two_zpow_pos _
      by_contra hc
      have := mul_neg_of_neg_of_pos (not_le.1 hc) hp
      linarith
    have g1 : ((K - ⌊h⌋ * (2 : Int) ^ 52 : Int) : ℝ) < (((2 : Int) ^ 52 : Int) : ℝ) := by
      have e : ((K - ⌊h⌋ * (2 : Int) ^ 52 : Int) : ℝ) = (h - (⌊h⌋ : ℝ)) * (2 : ℝ) ^ (52 : Int) := by
        rw [hg, mul_assoc, ← zpow_add₀ (by norm_num : (2 : ℝ) ≠ 0)]
        norm_num
      rw [e]
      have hp : (0 : ℝ) < (2 : ℝ) ^ (52 : Int) := two_zpow_pos _
      have := mul_lt_mul_of_pos_right f1 hp
      norm_num at this ⊢
      linarith
    have g2 : (K - ⌊h⌋ * (2 : Int) ^ 52 : Int) ≤ (2 : Int) ^ 52 - 1 := by
      have : (K - ⌊h⌋ * (2 : Int) ^ 52 : Int) < (2 : Int) ^ 52 := by exact_mod_cast g1
      omega
    have g3 : ((K - ⌊h⌋ * (2 : Int) ^ 52 : Int) : ℝ) ≤ (((2 : Int) ^ 52 - 1 : Int) : ℝ) := by
      exact_mod_cast g2
    constructor
    · refine roundDouble_exact _ (-52) ?_ hg
      rw [abs_of_nonneg g0]
      refine lt_trans g1 ?_
      norm_num
    · rw [hg]
      have hp : (0 : ℝ) < (2 : ℝ) ^ (-52 : Int) := two_zpow_pos _
      have := mul_le_mul_of_nonneg_right g3 hp.le
      refine le_trans this ?_
      norm_num
  · have hlt := not_le.1 h1
    have hfl : ⌊h⌋ = 0 := by
      rw [Int.floor_eq_iff]; constructor <;> simp [h0, hlt]
    rw [hfl]
    simp only [Int.cast_zero, sub_zero]
    refine ⟨hd, ?_⟩
    by_cases hh : 1 / 2 ≤ h
    · have hne : h ≠ 0 := by linarith
      obtain ⟨K, hK⟩ := @double_on_grid h (-1) hd hne
        (by rw [abs_of_nonneg h0]; norm_num; linarith)
      rw [show (-1 : Int) - 52 = -53 by norm_num] at hK
      have hp : (0 : ℝ) < (2 : ℝ) ^ (-53 : Int) := two_zpow_pos _
      have g1 : (K : ℝ) < (((2 : Int) ^ 53 : Int) : ℝ) := by
        have e : (K : ℝ) = h * (2 : ℝ) ^ (53 : Int) := by
          rw [hK, mul_assoc, ← zpow_add₀ (by norm_num : (2 : ℝ) ≠ 0)]
          norm_num
        rw [e]
        have hq : (0 : ℝ) < (2 : ℝ) ^ (53 : Int) := two_zpow_pos _
        have := mul_lt_mul_of_pos_right hlt hq
        norm_num at this ⊢
        linarith
      have g2 : K ≤ (2 : Int) ^ 53 - 1 := by
        have : K < (2 : Int) ^ 53 := by exact_mod_cast g1
        omega
      have g3 : (K : ℝ) ≤ (((2 : Int) ^ 53 - 1 : Int) : ℝ) := by exact_mod_cast g2
      rw [hK]
      have := mul_le_mul_of_nonneg_right g3 hp.le
      refine le_trans this ?_
      norm_num
    · have := not_le.1 hh
      norm_num
      linarith

/-- The minutes that `formatTime` computes for a double: the floor of the
exact product or one more, never above 59, and never more than `2 ^ -48`
above the exact product. -/
theorem fmtMinutesDouble_spec {h : ℝ} (hd : roundDouble h = h) (h0 : 0 ≤ h) :
    ⌊(h - (⌊h⌋ : ℝ)) * 60⌋ ≤ fmtMinutesDouble h ∧
    fmtMinutesDouble h ≤ ⌊(h - (⌊h⌋ : ℝ)) * 60⌋ + 1 ∧
    0 ≤ fmtMinutesDouble h ∧ fmtMinutesDouble h ≤ 59 ∧
    (fmtMinutesDouble h : ℝ) ≤ (h - (⌊h⌋ : ℝ)) * 60 + (2 : ℝ) ^ (-48 : Int) := by
  obtain ⟨ex, up⟩ := double_fract hd h0
  have f0 : 0 ≤ h - (⌊h⌋ : ℝ) := by linarith [Int.floor_le h]
  unfold fmtMinutesDouble fmtHours
  rw [ex]
  generalize h - (⌊h⌋ : ℝ) = t at *
  have x0 : 0 ≤ t * 60 := by positivity
  have hup : t * 60 ≤ 60 - 60 * (2 : ℝ) ^ (-53 : Int) := by linarith
  have x1 : t * 60 < 60 := by
    have : (0 : ℝ) < (2 : ℝ) ^ (-53 : Int) := two_zpow_pos _
    linarith
  have hx : |t * 60| < (2 : ℝ) ^ ((5 : Int) + 1) := by
    rw [abs_of_nonneg x0]; norm_num; linarith
  have hx53 : |t * 60| < (2 : ℝ) ^ (53 : Int) := by
    rw [abs_of_nonneg x0]; norm_num; linarith
  have he := roundDouble_error hx
  rw [show (5 : Int) - 53 = -48 by norm_num] at he
  obtain ⟨e1, e2⟩ := abs_le.1 he
  have lo := @roundDouble_ge_of_int (t * 60) ⌊t * 60⌋ hx53 (Int.floor_le _)
  have hi := @roundDouble_le_of_int (t * 60) (⌊t * 60⌋ + 1) hx53
    (by push_cast; exact (Int.lt_floor_add_one _).le)
  have r0 : 0 ≤ roundDouble (t * 60) := roundDouble_nonneg x0
  have r60 : roundDouble (t * 60) < 60 := by
    have : (2 : ℝ) ^ (-48 : Int) < 60 * (2 : ℝ) ^ (-53 : Int) := by norm_num
    linarith
  refine ⟨Int.le_floor.2 lo, ?_, Int.floor_nonneg.2 r0, ?_, ?_⟩
  · have : ⌊roundDouble (t * 60)⌋ ≤ ⌊((⌊t * 60⌋ + 1 : Int) : ℝ)⌋ := Int.floor_le_floor hi
    rw [Int.floor_intCast] at this
    exact this
  · have : ⌊roundDouble (t * 60)⌋ < 60 := Int.floor_lt.2 (by exact_mod_cast r60)
    omega
  · have := Int.floor_le (roundDouble (t * 60))
    linarith

theorem readHHMM_formatTimeDouble {h : ℝ} (hd : roundDouble h = h) (h0 : 0 ≤ h)
    (h1 : h < 100) :
    (formatTimeDouble (some h)).bind readHHMM = some (60 * fmtHours h + fmtMinutesDouble h) := by
  obtain ⟨a0, a1⟩ := fmtHours_range h0 h1
  obtain ⟨_, _, b0, b1, _⟩ := fmtMinutesDouble_spec hd h0
  obtain ⟨H, hH⟩ := Int.eq_ofNat_of_zero_le a0
  obtain ⟨M, hM⟩ := Int.eq_ofNat_of_zero_le b0
  have := readHHMM_render H M (by omega) (by omega)
  simp only [formatTimeDouble, Option.some_bind, hH, hM]
  exact this

theorem formatTimeDouble_data {h : ℝ} (hd : roundDouble h = h) (h0 : 0 ≤ h) (h1 : h < 100) :
    ∃ s, formatTimeDouble (some h) = some s ∧
      s.data = [Nat.digitChar ((fmtHours h).toNat / 10), Nat.digitChar ((fmtHours h).toNat % 10),
        ':', Nat.digitChar ((fmtMinutesDouble h).toNat / 10),
        Nat.digitChar ((fmtMinutesDouble h).toNat % 10)] := by
  obtain ⟨a0, a1⟩ := fmtHours_range h0 h1
  obtain ⟨_, _, b0, b1, _⟩ := fmtMinutesDouble_spec hd h0
  obtain ⟨H, hH⟩ := Int.eq_ofNat_of_zero_le a0
  obtain ⟨M, hM⟩ := Int.eq_ofNat_of_zero_le b0
  have p1 := pad_two_digits ⟨H, by omega⟩
  have p2 := pad_two_digits ⟨M, by omega⟩
  simp only at p1 p2
  refine ⟨_, rfl, ?_⟩
  rw [hH, hM, String.data_append, String.data_append, p1, p2]
  simp

/-- Claim C21, counterexample: at the double 0.15 (the number
`5404319552844595 / 2 ^ 55`, just below 0.15) the product
`(h - hours) * 60` is rounded to 9, so `formatTime` returns "00:09": the
minutes are not the floor 8 of the exact product, and the time denoted, 9/60
hours, is above `h`. -/
theorem formatTime_rounds_up_to_next_minute :
    roundDouble (0.15 : ℝ) = 5404319552844595 / 2 ^ 55 ∧
    fmtMinutesDouble (5404319552844595 / 2 ^ 55 : ℝ) = 9 ∧
    ⌊((5404319552844595 / 2 ^ 55 : ℝ) - (⌊(5404319552844595 / 2 ^ 55 : ℝ)⌋ : ℝ)) * 60⌋ = 8 ∧
    formatTimeDouble (some (5404319552844595 / 2 ^ 55 : ℝ)) = some "00:09" ∧
    (5404319552844595 / 2 ^ 55 : ℝ) < 9 / 60 := by
  have t : roundDouble (0.15 : ℝ) = 5404319552844595 / 2 ^ 55 := by
    rw [roundDouble_eq (e := -3) (by rw [abs_of_pos (by norm_num)]; norm_num)
      (by rw [abs_of_pos (by norm_num)]; norm_num)]
    rw [roundHalfEven_of_lt (n := 5404319552844595) (by norm_num) (by norm_num)]
    norm_num
  have hfl : ⌊(5404319552844595 / 2 ^ 55 : ℝ)⌋ = 0 := by
    rw [Int.floor_eq_iff]; constructor <;> norm_num
  have hH : fmtHours (5404319552844595 / 2 ^ 55 : ℝ) = 0 := hfl
  have d : roundDouble (5404319552844595 / 2 ^ 55 : ℝ) = 5404319552844595 / 2 ^ 55 :=
    roundDouble_exact 5404319552844595 (-55) (by rw [abs_of_pos (by norm_num)]; norm_num)
      (by norm_num)
  have p : roundDouble ((5404319552844595 / 2 ^ 55 : ℝ) * 60) = 9 := by
    rw [roundDouble_eq (e := 3) (by rw [abs_of_pos (by norm_num)]; norm_num)
      (by rw [abs_of_pos (by norm_num)]; norm_num)]
    rw [roundHalfEven_of_lt (n := 5066549580791808) (by norm_num) (by norm_num)]
    norm_num
  have hM : fmtMinutesDouble (5404319552844595 / 2 ^ 55 : ℝ) = 9 := by
    unfold fmtMinutesDouble
    rw [hH]
    simp only [Int.cast_zero, sub_zero]
    rw [d, p]
    exact Int.floor_eq_iff.2 ⟨by norm_num, by norm_num⟩
  refine ⟨t, hM, ?_, ?_, by norm_num⟩
  · rw [hfl]
    simp only [Int.cast_zero, sub_zero]
    rw [Int.floor_eq_iff]; constructor <;> norm_num
  · simp only [formatTimeDouble, hH, hM]
    decide

/-- Claim C21, amended: for a double `h` with `0 ≤ h < 24`, `formatTime`
returns a string of 5 characters, two digits of `floor(h)` (between 0 and
23), a colon, and two digits of the minutes (between 0 and 59), which are the
floor of the rounded product `(h - floor(h)) * 60`: the floor of the exact
product or one more.  The time it denotes is less than one minute below `h`
and at most `2 ^ -48` minutes above `h`.  For `null` it returns `null`. -/
theorem formatTime_truncates_rounded (h : ℝ) (hd : roundDouble h = h) (h0 : 0 ≤ h)
    (h24 : h < 24) :
    formatTimeDouble (none : Option ℝ) = none ∧
    fmtHours h = ⌊h⌋ ∧ 0 ≤ fmtHours h ∧ fmtHours h ≤ 23 ∧
    0 ≤ fmtMinutesDouble h ∧ fmtMinutesDouble h ≤ 59 ∧
    (fmtMinutesDouble h = ⌊(h - (⌊h⌋ : ℝ)) * 60⌋ ∨
      fmtMinutesDouble h = ⌊(h - (⌊h⌋ : ℝ)) * 60⌋ + 1) ∧
    ∃ s, formatTimeDouble (some h) = some s ∧ s.length = 5 ∧
      s.data = [Nat.digitChar ((fmtHours h).toNat / 10), Nat.digitChar ((fmtHours h).toNat % 10),
        ':', Nat.digitChar ((fmtMinutesDouble h).toNat / 10),
        Nat.digitChar ((fmtMinutesDouble h).toNat % 10)] ∧
      readHHMM s = some (60 * fmtHours h + fmtMinutesDouble h) ∧
      ((60 * fmtHours h + fmtMinutesDouble h : Int) : ℝ) / 60 ≤
        h + (2 : ℝ) ^ (-48 : Int) / 60 ∧
      h < (((60 * fmtHours h + fmtMinutesDouble h : Int) : ℝ) + 1) / 60 := by
  obtain ⟨a0, a1⟩ := fmtHours_range h0 (by linarith : h < 100)
  obtain ⟨b1, b2, b0, b59, bup⟩ := fmtMinutesDouble_spec hd h0
  have a23 : fmtHours h ≤ 23 := by
    have : fmtHours h < 24 := by
      unfold fmtHours
      exact Int.floor_lt.2 (by exact_mod_cast h24)
    omega
  obtain ⟨s, hs, hdata⟩ := formatTimeDouble_data hd h0 (by linarith : h < 100)
  have hread := readHHMM_formatTimeDouble hd h0 (by linarith : h < 100)
  rw [hs] at hread
  have hlow : (h - (⌊h⌋ : ℝ)) * 60 < (fmtMinutesDouble h : ℝ) + 1 := by
    have c1 := Int.lt_floor_add_one ((h - (⌊h⌋ : ℝ)) * 60)
    have c2 : ((⌊(h - (⌊h⌋ : ℝ)) * 60⌋ : Int) : ℝ) ≤ ((fmtMinutesDouble h : Int) : ℝ) := by
      exact_mod_cast b1
    linarith
  refine ⟨rfl, rfl, a0, a23, b0, b59, by omega, s, hs, ?_, hdata, hread, ?_, ?_⟩
  · show s.data.length = 5
    rw [hdata]; rfl
  · generalize (2 : ℝ) ^ (-48 : Int) = E at bup ⊢
    rw [div_le_iff₀ (by norm_num)]
    push_cast
    unfold fmtHours
    linarith
  · rw [lt_div_iff₀ (by norm_num)]
    push_cast
    unfold fmtHours
    linarith

/-- Claim C21, witness of the amended statement: half past six. -/
theorem formatTime_truncates_rounded_witness :
    roundDouble (6.5 : ℝ) = 6.5 ∧ fmtHours (6.5 : ℝ) = ⌊(6.5 : ℝ)⌋ ∧
    0 ≤ fmtMinutesDouble (6.5 : ℝ) ∧ fmtMinutesDouble (6.5 : ℝ) ≤ 59 :=
  have hd : roundDouble (6.5 : ℝ) = 6.5 :=
    roundDouble_exact 13 (-1) (by rw [abs_of_pos (by norm_num)]; norm_num) (by norm_num)
  have h := formatTime_truncates_rounded 6.5 hd (by norm_num) (by norm_num)
  ⟨hd, h.2.1, h.2.2.2.2.1, h.2.2.2.2.2.1⟩

/-! ### Sunrise and sunset as doubles -/

/-- Claim C5, counterexample: at the hour angle `7.460269235469101` (the
double `8399516437235555 / 2 ^ 50`, half the day length 14.920538470938203
of latitude 40.7128 on 2024-06-21) the sum `12 + hourAngle` is rounded, and
`12 - sunrise` is `7.460269235469101` while `sunset - 12` is
`7.460269235469102`: the decimal hours are not exactly symmetric. -/
theorem sunrise_sunset_not_exactly_symmetric :
    roundDouble (8399516437235555 / 2 ^ 50 : ℝ) = 8399516437235555 / 2 ^ 50 ∧
    (0 : ℝ) ≤ 8399516437235555 / 2 ^ 50 ∧ (8399516437235555 / 2 ^ 50 : ℝ) ≤ 12 ∧
    sunriseDouble (8399516437235555 / 2 ^ 50 : ℝ) = 5111282444875933 / 2 ^ 50 ∧
    sunsetDouble (8399516437235555 / 2 ^ 50 : ℝ) = 5477578829836761 / 2 ^ 48 ∧
    roundDouble (12 - sunriseDouble (8399516437235555 / 2 ^ 50 : ℝ)) =
      8399516437235555 / 2 ^ 50 ∧
    roundDouble (sunsetDouble (8399516437235555 / 2 ^ 50 : ℝ) - 12) =
      2099879109308889 / 2 ^ 48 ∧
    roundDouble (12 - sunriseDouble (8399516437235555 / 2 ^ 50 : ℝ)) ≠
      roundDouble (sunsetDouble (8399516437235555 / 2 ^ 50 : ℝ) - 12) := by
  have d : roundDouble (8399516437235555 / 2 ^ 50 : ℝ) = 8399516437235555 / 2 ^ 50 :=
    roundDouble_exact 8399516437235555 (-50) (by rw [abs_of_pos (by norm_num)]; norm_num)
      (by norm_num)
  have sr : sunriseDouble (8399516437235555 / 2 ^ 50 : ℝ) = 5111282444875933 / 2 ^ 50 := by
    unfold sunriseDouble
    rw [@roundDouble_exact (12 - 8399516437235555 / 2 ^ 50) 5111282444875933 (-50)
      (by rw [abs_of_pos (by norm_num)]; norm_num) (by norm_num)]
    norm_num
  have ss : sunsetDouble (8399516437235555 / 2 ^ 50 : ℝ) = 5477578829836761 / 2 ^ 48 := by
    unfold sunsetDouble
    rw [roundDouble_eq (e := 4) (by rw [abs_of_pos (by norm_num)]; norm_num)
      (by rw [abs_of_pos (by norm_num)]; norm_num)]
    rw [roundHalfEven_of_lt (n := 5477578829836761) (by norm_num) (by norm_num)]
    norm_num
  have a : roundDouble (12 - sunriseDouble (8399516437235555 / 2 ^ 50 : ℝ)) =
      8399516437235555 / 2 ^ 50 := by
    rw [sr, @roundDouble_exact (12 - 5111282444875933 / 2 ^ 50) 8399516437235555 (-50)
      (by rw [abs_of_pos (by norm_num)]; norm_num) (by norm_num)]
    norm_num
  have b : roundDouble (sunsetDouble (8399516437235555 / 2 ^ 50 : ℝ) - 12) =
      2099879109308889 / 2 ^ 48 := by
    rw [ss, @roundDouble_exact (5477578829836761 / 2 ^ 48 - 12) 2099879109308889 (-48)
      (by rw [abs_of_pos (by norm_num)]; norm_num) (by norm_num)]
    norm_num
  refine ⟨d, by norm_num, by norm_num, sr, ss, a, b, ?_⟩
  rw [a, b]
  norm_num

/-- The bound of two minutes is reached: at the hour angle
`4.0166666666666675` (the double `2261182312908937 / 2 ^ 49`) the sum
`12 + hourAngle` is rounded down to `16.016666666666666`, and the strings are
"07:58" and "16:00", 242 minutes before noon and 240 minutes after it. -/
theorem formatted_sunrise_sunset_two_minutes_apart :
    sunriseDouble (2261182312908937 / 2 ^ 49 : ℝ) = 4494217128146807 / 2 ^ 49 ∧
    sunsetDouble (2261182312908937 / 2 ^ 49 : ℝ) = 1127072719245585 / 2 ^ 46 ∧
    formatTimeDouble (some (sunriseDouble (2261182312908937 / 2 ^ 49 : ℝ))) = some "07:58" ∧
    formatTimeDouble (some (sunsetDouble (2261182312908937 / 2 ^ 49 : ℝ))) = some "16:00" ∧
    readHHMM "07:58" = some 478 ∧ readHHMM "16:00" = some 960 := by
  have sr : sunriseDouble (2261182312908937 / 2 ^ 49 : ℝ) = 4494217128146807 / 2 ^ 49 := by
    unfold sunriseDouble
    rw [@roundDouble_exact (12 - 2261182312908937 / 2 ^ 49) 4494217128146807 (-49)
      (by rw [abs_of_pos (by norm_num)]; norm_num) (by norm_num)]
    norm_num
  have ss : sunsetDouble (2261182312908937 / 2 ^ 49 : ℝ) = 1127072719245585 / 2 ^ 46 := by
    unfold sunsetDouble
    rw [roundDouble_eq (e := 4) (by rw [abs_of_pos (by norm_num)]; norm_num)
      (by rw [abs_of_pos (by norm_num)]; norm_num)]
    rw [roundHalfEven_tie_even (n := 4508290876982340) (by norm_num) (by decide)]
    norm_num
  have hH1 : fmtHours (4494217128146807 / 2 ^ 49 : ℝ) = 7 := by
    unfold fmtHours
    rw [Int.floor_eq_iff]; constructor <;> norm_num
  have hH2 : fmtHours (1127072719245585 / 2 ^ 46 : ℝ) = 16 := by
    unfold fmtHours
    rw [Int.floor_eq_iff]; constructor <;> norm_num
  have hM1 : fmtMinutesDouble (4494217128146807 / 2 ^ 49 : ℝ) = 58 := by
    unfold fmtMinutesDouble
    rw [hH1, @roundDouble_exact (4494217128146807 / 2 ^ 49 - ((7 : Int) : ℝ)) 553567454197623 (-49)
      (by rw [abs_of_pos (by norm_num)]; norm_num) (by norm_num),
      @roundDouble_exact ((4494217128146807 / 2 ^ 49 - ((7 : Int) : ℝ)) * 60) 8303511812964345
        (-47) (by rw [abs_of_pos (by norm_num)]; norm_num) (by norm_num)]
    rw [Int.floor_eq_iff]; constructor <;> norm_num
  have hM2 : fmtMinutesDouble (1127072719245585 / 2 ^ 46 : ℝ) = 0 := by
    unfold fmtMinutesDouble
    rw [hH2, @roundDouble_exact (1127072719245585 / 2 ^ 46 - ((16 : Int) : ℝ)) 1172812402961 (-46)
      (by rw [abs_of_pos (by norm_num)]; norm_num) (by norm_num),
      @roundDouble_exact ((1127072719245585 / 2 ^ 46 - ((16 : Int) : ℝ)) * 60) 17592186044415
        (-44) (by rw [abs_of_pos (by norm_num)]; norm_num) (by norm_num)]
    rw [Int.floor_eq_iff]; constructor <;> norm_num
  refine ⟨sr, ss, ?_, ?_, by decide, by decide⟩
  · rw [sr]
    simp only [formatTimeDouble, hH1, hM1]
    decide
  · rw [ss]
    simp only [formatTimeDouble, hH2, hM2]
    decide

/-- Claim C5, amended: for an hour angle between 0 and 12 (the range of the
hour angle of `getSunTimes` when it finds a sunrise and a sunset), the values
`sunrise = 12 - hourAngle` and `sunset = 12 + hourAngle` are formatted so that
the `HH:MM` strings, read back as minutes of the day against the solar noon
"12:00", satisfy 0 ≤ (noon - sunrise) - (sunset - noon) ≤ 2 minutes, and the
decimal hours satisfy |(12 - sunrise) - (sunset - 12)| ≤ 2 ^ -47 hours, the
differences being computed as doubles. -/
theorem sunrise_sunset_bracket_noon_rounded (h : ℝ) (h0 : 0 ≤ h) (h12 : h ≤ 12) :
    (∃ r s : Int,
      (formatTimeDouble (some (sunriseDouble h))).bind readHHMM = some r ∧
      readHHMM "12:00" = some 720 ∧
      (formatTimeDouble (some (sunsetDouble h))).bind readHHMM = some s ∧
      0 ≤ (720 - r) - (s - 720) ∧ (720 - r) - (s - 720) ≤ 2) ∧
    |roundDouble (12 - sunriseDouble h) - roundDouble (sunsetDouble h - 12)| ≤
      (2 : ℝ) ^ (-47 : Int) := by
  have e1 : |sunriseDouble h - (12 - h)| ≤ (2 : ℝ) ^ (-50 : Int) := by
    have := @roundDouble_error (12 - h) 3 (by rw [abs_of_nonneg (by linarith)]; norm_num; linarith)
    rw [show (3 : Int) - 53 = -50 by norm_num] at this
    exact this
  have e2 : |sunsetDouble h - (12 + h)| ≤ (2 : ℝ) ^ (-49 : Int) := by
    have := @roundDouble_error (12 + h) 4 (by rw [abs_of_nonneg (by linarith)]; norm_num; linarith)
    rw [show (4 : Int) - 53 = -49 by norm_num] at this
    exact this
  have d1 : roundDouble (sunriseDouble h) = sunriseDouble h := roundDouble_idem _
  have d2 : roundDouble (sunsetDouble h) = sunsetDouble h := roundDouble_idem _
  have p1 : 0 ≤ sunriseDouble h := roundDouble_nonneg (by linarith)
  have p2 : 0 ≤ sunsetDouble h := roundDouble_nonneg (by linarith)
  have c50 : (2 : ℝ) ^ (-50 : Int) = 1 / 1125899906842624 := by norm_num
  have c49 : (2 : ℝ) ^ (-49 : Int) = 2 / 1125899906842624 := by norm_num
  have c48 : (2 : ℝ) ^ (-48 : Int) = 4 / 1125899906842624 := by norm_num
  have c47 : (2 : ℝ) ^ (-47 : Int) = 8 / 1125899906842624 := by norm_num
  rw [c50] at e1
  rw [c49] at e2
  obtain ⟨e1a, e1b⟩ := abs_le.1 e1
  obtain ⟨e2a, e2b⟩ := abs_le.1 e2
  constructor
  · obtain ⟨m1, _, _, _, m5⟩ := fmtMinutesDouble_spec d1 p1
    obtain ⟨n1, _, _, _, n5⟩ := fmtMinutesDouble_spec d2 p2
    rw [c48] at m5 n5
    have r1 := readHHMM_formatTimeDouble d1 p1 (by linarith)
    have r2 := readHHMM_formatTimeDouble d2 p2 (by linarith)
    refine ⟨_, _, r1, by decide, r2, ?_, ?_⟩
    · have hm := Int.floor_le (sunriseDouble h)
      have hn := Int.floor_le (sunsetDouble h)
      have key : ((60 * fmtHours (sunriseDouble h) + fmtMinutesDouble (sunriseDouble h) +
          (60 * fmtHours (sunsetDouble h) + fmtMinutesDouble (sunsetDouble h)) : Int) : ℝ) <
          ((1441 : Int) : ℝ) := by
        push_cast
        unfold fmtHours
        linarith
      have := Int.cast_lt.1 key
      omega
    · have hm := Int.lt_floor_add_one ((sunriseDouble h - (⌊sunriseDouble h⌋ : ℝ)) * 60)
      have hn := Int.lt_floor_add_one ((sunsetDouble h - (⌊sunsetDouble h⌋ : ℝ)) * 60)
      have m1' : ((⌊(sunriseDouble h - (⌊sunriseDouble h⌋ : ℝ)) * 60⌋ : Int) : ℝ) ≤
          ((fmtMinutesDouble (sunriseDouble h) : Int) : ℝ) := by exact_mod_cast m1
      have n1' : ((⌊(sunsetDouble h - (⌊sunsetDouble h⌋ : ℝ)) * 60⌋ : Int) : ℝ) ≤
          ((fmtMinutesDouble (sunsetDouble h) : Int) : ℝ) := by exact_mod_cast n1
      have key : ((1437 : Int) : ℝ) <
          ((60 * fmtHours (sunriseDouble h) + fmtMinutesDouble (sunriseDouble h) +
          (60 * fmtHours (sunsetDouble h) + fmtMinutesDouble (sunsetDouble h)) : Int) : ℝ) := by
        push_cast
        unfold fmtHours
        linarith
      have := Int.cast_lt.1 key
      omega
  · have a1 : |roundDouble (12 - sunriseDouble h) - (12 - sunriseDouble h)| ≤
        (2 : ℝ) ^ (-50 : Int) := by
      have := @roundDouble_error (12 - sunriseDouble h) 3
        (by rw [abs_lt]; constructor <;> norm_num <;> linarith)
      rw [show (3 : Int) - 53 = -50 by norm_num] at this
      exact this
    have a2 : |roundDouble (sunsetDouble h - 12) - (sunsetDouble h - 12)| ≤
        (2 : ℝ) ^ (-50 : Int) := by
      have := @roundDouble_error (sunsetDouble h - 12) 3
        (by rw [abs_lt]; constructor <;> norm_num <;> linarith)
      rw [show (3 : Int) - 53 = -50 by norm_num] at this
      exact this
    rw [c50] at a1 a2
    rw [c47]
    obtain ⟨a1a, a1b⟩ := abs_le.1 a1
    obtain ⟨a2a, a2b⟩ := abs_le.1 a2
    rw [abs_le]
    constructor <;> linarith

/-- Claim C5, witness of the amended statement: the hour angle 6 of the
equator. -/
theorem sunrise_sunset_bracket_noon_rounded_witness :
    (0 : ℝ) ≤ 6 ∧ (6 : ℝ) ≤ 12 ∧
    |roundDouble (12 - sunriseDouble (6 : ℝ)) - roundDouble (sunsetDouble (6 : ℝ) - 12)| ≤
      (2 : ℝ) ^ (-47 : Int) :=
  ⟨by norm_num, by norm_num,
    (sunrise_sunset_bracket_noon_rounded 6 (by norm_num) (by norm_num)).2⟩

/-! ### The azimuth at noon below the subsolar latitude -/

/-- Claim C4, amended: for a northern latitude below the subsolar latitude of
the date by at least one millionth of a degree (0 < latitude and
latitude + 0.000001 ≤ declination), `getSolarPosition` at 12:00 returns
azimuth 0 degrees (the sun is due north), not 180. -/
theorem noon_azimuth_below_subsolar_latitude (lat lng : ℝ) (date : JsDate)
    (hnoon : date.hours = 12 ∧ date.minutes = 0 ∧ date.seconds = 0)
    (h0 : 0 < lat) (h1 : lat + 0.000001 ≤ (getSolarPosition lat lng date).declination) :
    (getSolarPosition lat lng date).azimuth = 0 := by
  have hn : decimalHour date = 12 := by
    have := decimalHour_of_fields hnoon.1 hnoon.2.1 hnoon.2.2
    simpa using this
  unfold getSolarPosition at h1 ⊢
  rw [hn] at h1 ⊢
  have h1' : lat < toDegrees (solarDelta (getJulianDay date)) := by
    have : lat + 0.000001 ≤ toDegrees (solarDelta (getJulianDay date)) := h1
    linarith
  have hlt : toRadians lat < solarDelta (getJulianDay date) :=
    (toRadians_lt_iff _ _).2 h1'
  have hpos : 0 < toRadians lat := by unfold toRadians; positivity
  refine noon_azimuth_north hlt ?_
  have := solarDelta_lt (getJulianDay date)
  have := Real.pi_pos
  linarith

/-- Claim C4, witness of the amended statement: latitude 1 degree north at
12:00 on 2024-06-21. -/
theorem noon_azimuth_below_subsolar_latitude_witness :
    (getSolarPosition 1 0 solsticeNoon).azimuth = 0 :=
  noon_azimuth_below_subsolar_latitude 1 0 solsticeNoon ⟨rfl, rfl, rfl⟩ (by norm_num)
    (by
      have hjd : getJulianDay solsticeNoon = 2460483 := by decide
      have hlt : toRadians (1 + 0.000001) < solarDelta 2460483 :=
        lt_trans (toRadians_lt_toRadians (by norm_num)) solarDelta_solstice_gt
      unfold getSolarPosition
      rw [hjd]
      exact ((toRadians_lt_iff _ _).1 hlt).le)

end

end SunViz
